import Mathlib

/-!
# OJ-API judging core: worker loop, job runner, script host and handlers

A shallow embedding of `sandbox/runHandler.go`, of the rescore and leaderboard handlers
of `handlers/score.go` and of the password reset handler of `handlers/user.go`.

* Go `string` and `[]byte` values are Lean `String`s, Go `int` is `Int`.
* A Go function with effects becomes a function from the answers of the outside
  world (database, file system, child processes: the `RunEnv`, `RescoreEnv`,
  `BulkEnv`, `LeaderboardEnv` and `ResetEnv` records) to the list of effects it
  performs, in program order (`Event`), or to its response.
* `defer` is modelled by `Frame`: deferred calls are kept on a stack and run,
  last registered first, when the function returns.
* The database is the persistence library GORM: `Updates` with a struct value
  writes the non-zero fields only, `Updates` with a map writes every key; the values
  written are assigned to the model the call was made on as well.
-/

namespace OJ

/-! ## Data model -/

/-- The float64 values a score can take. Negative zero is identified with zero. -/
inductive GoFloat where
  | fin (q : ℚ)
  | posInf
  | negInf
  | nan
  deriving DecidableEq

deriving instance DecidableEq for Except

/-- Values of `time.Time`, as a count of ticks; `0` is the zero time. -/
abbrev Time := Nat

/-- The fields of `models.UserQuestionRelation` (the Submission-Link) the handlers use. -/
structure UserQuestionRelation where
  id : Nat
  userID : Nat
  questionID : Nat
  gitUserRepoURL : String
  deriving DecidableEq

/-- The fields of `models.UserQuestionTable` (the Submission) the core uses. -/
structure UserQuestionTable where
  id : Nat
  uqr : UserQuestionRelation
  score : GoFloat
  judgeTime : Time
  message : String
  deriving DecidableEq

/-- The Go zero value of `models.UserQuestionRelation`. -/
def UserQuestionRelation.zero : UserQuestionRelation :=
  { id := 0, userID := 0, questionID := 0, gitUserRepoURL := "" }

/-- The Go zero value of `models.UserQuestionTable`: what a struct literal leaves in the
fields it does not name. -/
def UserQuestionTable.zero : UserQuestionTable :=
  { id := 0, uqr := UserQuestionRelation.zero, score := GoFloat.fin 0, judgeTime := 0,
    message := "" }

/-- The fields of `models.QuestionTestScript` the runner uses. -/
structure QuestionTestScript where
  testScript : String
  executeScript : String
  scoreScript : String
  deriving DecidableEq

/-- The columns of a Submission row that one `Updates` call sets. -/
structure Cols where
  score : Option GoFloat
  message : Option String
  judgeTime : Option Time
  deriving DecidableEq

/-- The columns written by `db.Model(&row).Updates(v)` for a struct value `v`: GORM
leaves out every field that holds its zero value. -/
def structUpdates (v : UserQuestionTable) : Cols :=
  { score := if v.score = GoFloat.fin 0 then none else some v.score
    message := if v.message = "" then none else some v.message
    judgeTime := if v.judgeTime = 0 then none else some v.judgeTime }

/-- The columns written by `Updates(map[string]interface{}{"score": s, "message": m})`:
every key of the map is written, zero or not. -/
def mapUpdates (s : GoFloat) (m : String) : Cols :=
  { score := some s, message := some m, judgeTime := none }

/-- The model `v` after GORM has built the statement of `db.Model(&v).Updates(..)` that
writes the columns `c`: every value it is about to write is assigned to the field of the
model as well. -/
def UserQuestionTable.assigned (v : UserQuestionTable) (c : Cols) : UserQuestionTable :=
  { v with
    score := c.score.getD v.score
    message := c.message.getD v.message
    judgeTime := c.judgeTime.getD v.judgeTime }

/-- The columns of a Submission row that the core reads and writes. -/
structure Row where
  score : GoFloat
  message : String
  judgeTime : Time
  deriving DecidableEq

/-- The row after the columns `c` have been written to it. -/
def Row.write (r : Row) (c : Cols) : Row :=
  { score := c.score.getD r.score
    message := c.message.getD r.message
    judgeTime := c.judgeTime.getD r.judgeTime }

/-- An in-memory `Job`: question clone URL, local code path, Submission handle. -/
structure Job where
  repo : String
  codePath : String
  uqr : UserQuestionTable
  deriving DecidableEq

/-- The logical structure a JSON text denotes. Numbers are the exact values written in
the text; the members of an object are keyed by name and listed in key order, since the
order in which a text writes them is not part of the structure. -/
inductive Json where
  | null
  | bool (b : Bool)
  | num (q : ℚ)
  | str (s : String)
  | arr (items : List Json)
  | obj (members : List (String × Json))

/-- The value `json.Unmarshal` stores in an `interface{}`: `nil`, `bool`, `float64`,
`string`, `[]interface{}` or `map[string]interface{}`. A float64 is given by the
rational it is equal to. -/
inductive GoValue where
  | nil
  | bool (b : Bool)
  | float64 (x : ℚ)
  | string (s : String)
  | slice (items : List GoValue)
  | map (members : List (String × GoValue))

/-- What `getJsonfromdb` hands to `ioutil.WriteFile`: either bytes taken as they are, or
the text that `json.MarshalIndent(v, "", "  ")` prints for a decoded value `v`. -/
inductive FileContent where
  | raw (bytes : String)
  | indented (v : GoValue)

/-- The effects of the core, in the order the code performs them. -/
inductive Event where
  /-- The call `db.Model(&row).Updates(..)` on Submission `sub`; `err` is the answer of the
  database. -/
  | dbUpdate (sub : Nat) (cols : Cols) (err : Option String)
  /-- The call `db.Create(&row)` and the answer of the database. -/
  | dbCreate (row : UserQuestionTable) (err : Option String)
  /-- The call `s.Release(box)`. -/
  | release (box : Int)
  /-- The call `s.ReserveJob(repo, codePath, uqr)`: push a Job on the queue. -/
  | reserveJob (repo : String) (codePath : String) (uqr : UserQuestionTable)
  /-- The call `WriteToTempFile(content)`. -/
  | writeTempFile (content : String)
  /-- The call `os.Remove(file)`. -/
  | remove (file : String)
  /-- The call `os.RemoveAll(dir)`. -/
  | removeAll (dir : String)
  /-- The call `os.MkdirAll(dir, 0755)` and the error, if any, it returns. -/
  | mkdirAll (dir : String) (err : Option String)
  /-- The call `ioutil.WriteFile(path, content, 0644)` and the error, if any, it returns. -/
  | writeFile (path : String) (content : FileContent) (err : Option String)
  /-- Running `exec.CommandContext(ctx, name, args...)`. -/
  | exec (name : String) (args : List String)
  /-- The call `os.ReadFile(path)`. -/
  | readFile (path : String)
  /-- The deferred `cancel()` of the run context. -/
  | cancel
  /-- The call `c.JSON(status, ..)`, with the message of the response. -/
  | respond (status : Nat) (message : String)
  /-- The call `git.PlainClone(path, false, ..)` with clone URL `url`. -/
  | clone (path : String) (url : String)
  /-- The call `os.Chmod(path, 0777)`. -/
  | chmod (path : String)
  /-- The statement `go s.runShellCommandByRepo(box, job)`: a runner is started. -/
  | spawn (box : Int) (job : Job)
  /-- The call `client.AdminEditUser(user, gitea.EditUserOption{LoginName: loginName,
  Password: password})` of a Gitea client made with `adminToken`, and the error, if any,
  it returns. -/
  | adminEditUser (adminToken user loginName password : String) (err : Option String)

/-- The exit of a child process as `cmd.CombinedOutput()` reports it: the error (none on
exit code zero) and the combined output. -/
structure ProcResult where
  err : Option String
  out : String
  deriving DecidableEq

/-! ## The outside world -/

/-- The behaviour of `encoding/json` that `getJsonfromdb` relies on. -/
structure JsonLib where
  /-- The JSON grammar: the logical structure of a text, `none` when the text is not
  valid JSON. -/
  parse : String → Option Json
  /-- Decoding of a number into an `interface{}`: the float64 nearest to it (given by
  its value), `none` when the number is out of the float64 range. -/
  toFloat64 : ℚ → Option ℚ
  /-- The number denoted by the digits the encoder prints for a float64. -/
  floatText : ℚ → ℚ

/-- The answers of the outside world during one run of the job runner. -/
structure RunEnv where
  /-- The value of `time.Now().UTC()`; never the zero time. -/
  now : Time
  /-- The answer of the TestScripts lookup of `runShellCommandByRepo`. -/
  lookup : Except String QuestionTestScript
  /-- The error, if any, of the `k`-th `Updates` call of the run (counted from 0). -/
  dbErr : Nat → Option String
  /-- Whether the `k`-th `Updates` call of the run, when it returns an error, had built
  its statement before the error came up (an error of the execution) or not (no
  connection to open the transaction on). -/
  dbBuilt : Nat → Bool
  /-- The answer of the `k`-th `WriteToTempFile` call of the run: a code id or an error. -/
  tempFile : Nat → Except String String
  /-- The helper `shellFilename`: the file name of a code id. -/
  shellFilename : String → String
  /-- The package variable `CodeStorageFolder`. -/
  codeStorageFolder : String
  /-- The library function `filepath.Join` on two elements. -/
  filepathJoin : String → String → String
  /-- The error, if any, of `os.MkdirAll` on the `utils` directory. -/
  mkdirErr : Option String
  /-- The error, if any, of `ioutil.WriteFile` on `score.json`. -/
  writeFileErr : Option String
  /-- The error, if any, of running the `cp` of the score parser. -/
  copyErr : Option String
  /-- The exit of the isolation tool in the compile phase. -/
  compile : ProcResult
  /-- The exit of the isolation tool in the execute phase. -/
  execute : ProcResult
  /-- The answer of `os.ReadFile` on `score.txt`. -/
  scoreFile : Except String String
  /-- The answer of `os.ReadFile` on `message.txt`. -/
  messageFile : Except String String
  /-- The library function `strconv.ParseFloat(s, 64)`. -/
  parseFloat : String → Except String GoFloat
  /-- The JSON library. -/
  json : JsonLib

/-! ## Library functions -/

/-- The library function `strings.Contains`. -/
def stringsContains (s substr : String) : Bool :=
  decide (substr.toList <:+: s.toList)

/-- The white space of `unicode.IsSpace`, which `strings.TrimSpace` removes. -/
def isSpace (c : Char) : Bool :=
  let n := c.toNat
  n = 0x09 || n = 0x0A || n = 0x0B || n = 0x0C || n = 0x0D || n = 0x20 || n = 0x85 ||
  n = 0xA0 || n = 0x1680 || (0x2000 ≤ n && n ≤ 0x200A) || n = 0x2028 || n = 0x2029 ||
  n = 0x202F || n = 0x205F || n = 0x3000

/-- The library function `strings.TrimSpace`: leading and trailing white space removed. -/
def trimSpace (s : String) : String :=
  String.mk ((s.toList.dropWhile isSpace).reverse.dropWhile isSpace).reverse

mutual
/-- What `json.Unmarshal(text, &tmp)` stores in `tmp interface{}` for a text that denotes
  `v`; `none` when a number is out of range, which makes `Unmarshal` return an error. -/
def decode (lib : JsonLib) : Json → Option GoValue
  | Json.null => some GoValue.nil
  | Json.bool b => some (GoValue.bool b)
  | Json.num q => (lib.toFloat64 q).map GoValue.float64
  | Json.str s => some (GoValue.string s)
  | Json.arr items => (decodeList lib items).map GoValue.slice
  | Json.obj members => (decodeMembers lib members).map GoValue.map
/-- Decoding of the items of an array. -/
def decodeList (lib : JsonLib) : List Json → Option (List GoValue)
  | [] => some []
  | v :: vs =>
    match decode lib v, decodeList lib vs with
    | some g, some gs => some (g :: gs)
    | _, _ => none
/-- Decoding of the members of an object. -/
def decodeMembers (lib : JsonLib) : List (String × Json) → Option (List (String × GoValue))
  | [] => some []
  | (k, v) :: ms =>
    match decode lib v, decodeMembers lib ms with
    | some g, some gs => some ((k, g) :: gs)
    | _, _ => none
end

mutual
/-- The logical structure of the text that `json.MarshalIndent` prints for a decoded
value. -/
def encoded (lib : JsonLib) : GoValue → Json
  | GoValue.nil => Json.null
  | GoValue.bool b => Json.bool b
  | GoValue.float64 x => Json.num (lib.floatText x)
  | GoValue.string s => Json.str s
  | GoValue.slice items => Json.arr (encodedList lib items)
  | GoValue.map members => Json.obj (encodedMembers lib members)
/-- The items of a printed array. -/
def encodedList (lib : JsonLib) : List GoValue → List Json
  | [] => []
  | g :: gs => encoded lib g :: encodedList lib gs
/-- The members of a printed object. -/
def encodedMembers (lib : JsonLib) : List (String × GoValue) → List (String × Json)
  | [] => []
  | (k, g) :: ms => (k, encoded lib g) :: encodedMembers lib ms
end

/-- The library function `json.Unmarshal(text, &tmp)` with `tmp interface{}`: it fails
on a text that is not valid JSON and on a number out of the float64 range. -/
def jsonUnmarshal (lib : JsonLib) (text : String) : Option GoValue :=
  (lib.parse text).bind (decode lib)

/-- The logical structure that re-parsing a written file yields. -/
def FileContent.denotes (lib : JsonLib) : FileContent → Option Json
  | FileContent.raw bytes => lib.parse bytes
  | FileContent.indented v => some (encoded lib v)

mutual
/-- The numbers that occur in a logical structure. -/
def Json.numbers : Json → List ℚ
  | Json.null => []
  | Json.bool _ => []
  | Json.num q => [q]
  | Json.str _ => []
  | Json.arr items => numbersList items
  | Json.obj members => numbersMembers members
/-- The numbers that occur in the items of an array. -/
def numbersList : List Json → List ℚ
  | [] => []
  | v :: vs => v.numbers ++ numbersList vs
/-- The numbers that occur in the members of an object. -/
def numbersMembers : List (String × Json) → List ℚ
  | [] => []
  | (_, v) :: ms => v.numbers ++ numbersMembers ms
end

/-- The number `q` survives the JSON library: when it is in the range of float64, the
digits printed for the float64 nearest to it denote `q` again. -/
def NumberKept (lib : JsonLib) (q : ℚ) : Prop :=
  ∀ x, lib.toFloat64 q = some x → lib.floatText x = q

/-! ## Deferred calls -/

/-- A function activation: the effects performed so far and the stack of deferred
calls, most recently registered first. -/
structure Frame where
  trace : List Event
  defers : List Event

/-- The empty activation a function starts with. -/
def Frame.start : Frame := { trace := [], defers := [] }

/-- Perform an effect. -/
def Frame.emit (f : Frame) (e : Event) : Frame := { f with trace := f.trace ++ [e] }

/-- Perform the effects of a callee. -/
def Frame.call (f : Frame) (es : List Event) : Frame := { f with trace := f.trace ++ es }

/-- Register a deferred call. -/
def Frame.defer (f : Frame) (e : Event) : Frame := { f with defers := e :: f.defers }

/-- Return: the deferred calls run in last-in-first-out order. -/
def Frame.ret (f : Frame) : List Event := f.trace ++ f.defers

/-! ## The job runner (`sandbox/runHandler.go`) -/

/-- The struct literal `models.UserQuestionTable{Score: s, Message: m}`. -/
def scoreMessage (s : GoFloat) (m : String) : UserQuestionTable :=
  { UserQuestionTable.zero with score := s, message := m }

/-- The argument vector that `runCompile` passes to `isolate`. -/
def compileArgs (env : RunEnv) (box : Int) (shellCommand codePath : String) : List String :=
  let cmdArgs := ["--box-id=" ++ toString box, "--fsize=5120",
    "--dir=" ++ env.codeStorageFolder ++ ":rw", "--wait", "--processes", "--open-files=0",
    "--env=PATH", "--stderr-to-stdout"]
  let cmdArgs := if codePath.length > 0 then
      cmdArgs ++ ["--chdir=" ++ codePath, "--dir=" ++ codePath ++ ":rw",
        "--env=CODE_PATH=" ++ codePath]
    else cmdArgs
  cmdArgs ++ ["--run", "--", "/usr/bin/sh", shellCommand]

/-- The function `runCompile`: the call of the isolation tool and the pair
`(success, output)` it returns. -/
def runCompile (env : RunEnv) (box : Int) (shellCommand codePath : String) :
    List Event × Bool × String :=
  let call := [Event.exec "isolate" (compileArgs env box shellCommand codePath)]
  match env.compile.err with
  | some err => (call, false, err ++ "\n" ++ env.compile.out)
  | none =>
    if stringsContains env.compile.out "error:" then (call, false, env.compile.out)
    else (call, true, env.compile.out)

/-- The argument vector that `runExecute` passes to `isolate`. -/
def executeArgs (env : RunEnv) (box : Int) (shellCommand codePath : String) : List String :=
  let cmdArgs := ["--box-id=" ++ toString box, "--fsize=5120",
    "--dir=" ++ env.codeStorageFolder, "--wait", "--processes=100", "--open-files=0",
    "--env=PATH", "--time=1", "--wall-time=2", "--mem=131072"]
  let cmdArgs := if codePath.length > 0 then
      cmdArgs ++ ["--chdir=" ++ codePath, "--dir=" ++ codePath ++ ":rw",
        "--env=CODE_PATH=" ++ codePath]
    else cmdArgs
  cmdArgs ++ ["--run", "--", "/usr/bin/sh", shellCommand]

/-- The function `runExecute`: the call of the isolation tool and the pair
`(output, success)` it returns. -/
def runExecute (env : RunEnv) (box : Int) (shellCommand codePath : String) :
    List Event × String × Bool :=
  let call := [Event.exec "isolate" (executeArgs env box shellCommand codePath)]
  match env.execute.err with
  | some _ => (call, "Execute with Error!", false)
  | none => (call, env.execute.out, true)

/-- The function `getJsonfromdb`: the score blob is written to `score.json` under
`path`, re-printed with indentation when `json.Unmarshal` accepts it and as it is
otherwise. `json.MarshalIndent` does not fail on a value that `json.Unmarshal` produced,
so the early return on its error is never taken. An error of `ioutil.WriteFile` is
printed and has no other effect. -/
def getJsonfromdb (env : RunEnv) (path : String) (row : QuestionTestScript) : List Event :=
  let filename := "score.json"
  let filepath := env.filepathJoin path filename
  let prettyJSON :=
    match jsonUnmarshal env.json row.scoreScript with
    | none => FileContent.raw row.scoreScript
    | some tmp => FileContent.indented tmp
  [Event.writeFile filepath prettyJSON env.writeFileErr]

/-- The last part of `runShellCommand`, from the read of `score.txt` on. -/
def harvest (env : RunEnv) (codePath : String) (userQuestion : UserQuestionTable)
    (f : Frame) : List Event :=
  let f := f.emit (Event.readFile (codePath ++ "/score.txt"))
  match env.scoreFile with
  | Except.error err =>
    (f.emit (Event.dbUpdate userQuestion.id
      (structUpdates (scoreMessage (GoFloat.fin (-2)) ("Failed to read score: " ++ err)))
      (env.dbErr 2))).ret
  | Except.ok score =>
    match env.parseFloat (trimSpace score) with
    | Except.error err =>
      (f.emit (Event.dbUpdate userQuestion.id
        (structUpdates (scoreMessage (GoFloat.fin (-2))
          ("Failed to convert score to int: " ++ err)))
        (env.dbErr 2))).ret
    | Except.ok scoreFloat =>
      let f := f.emit (Event.readFile (codePath ++ "/message.txt"))
      match env.messageFile with
      | Except.error err =>
        (f.emit (Event.dbUpdate userQuestion.id
          (structUpdates (scoreMessage (GoFloat.fin (-2)) ("Failed to read message: " ++ err)))
          (env.dbErr 2))).ret
      | Except.ok message =>
        let f := f.emit (Event.dbUpdate userQuestion.id
          (structUpdates (scoreMessage scoreFloat (trimSpace message))) (env.dbErr 2))
        match env.dbErr 2 with
        | some err =>
          (f.emit (Event.dbUpdate userQuestion.id
            (structUpdates (scoreMessage (GoFloat.fin (-2)) ("Failed to update score: " ++ err)))
            (env.dbErr 3))).ret
        | none =>
          let f := f.defer (Event.removeAll codePath)
          f.ret

/-- The middle part of `runShellCommand`: the compile and execute phases. -/
def compileAndExecute (env : RunEnv) (boxID : Int) (cmd : QuestionTestScript)
    (codePath : String) (userQuestion : UserQuestionTable) (codeID : String) (f : Frame) :
    List Event :=
  let compiled := runCompile env boxID (env.shellFilename codeID) codePath
  let success := compiled.2.1
  let compileOut := compiled.2.2
  let f := f.call compiled.1
  if !success then
    (f.emit (Event.dbUpdate userQuestion.id
      (mapUpdates (GoFloat.fin 0) ("Compilation Failed:\n" ++ compileOut)) (env.dbErr 2))).ret
  else
    let executeScript := cmd.executeScript ++ "\nrm build -rf"
    let f := f.emit (Event.writeTempFile executeScript)
    match env.tempFile 1 with
    | Except.error err =>
      (f.emit (Event.dbUpdate userQuestion.id
        (structUpdates (scoreMessage (GoFloat.fin (-2)) ("Failed to save code as file: " ++ err)))
        (env.dbErr 2))).ret
    | Except.ok execodeID =>
      let f := f.defer (Event.remove (env.shellFilename execodeID))
      let f := f.call (runExecute env boxID (env.shellFilename execodeID) codePath).1
      harvest env codePath userQuestion f

/-- The function `runShellCommand`: one judging run on the reserved slot `boxID`. The
parameter `userQuestion` is a copy that the function owns; every `Updates` call addresses
the row by its primary key, which no call changes, so the values GORM assigns to the
other fields of the copy are never read. -/
def runShellCommand (env : RunEnv) (boxID : Int) (cmd : QuestionTestScript)
    (codePath : String) (userQuestion : UserQuestionTable) : List Event :=
  let f := Frame.start
  let f := f.emit (Event.dbUpdate userQuestion.id
    (structUpdates { UserQuestionTable.zero with judgeTime := env.now }) (env.dbErr 0))
  let f := f.defer (Event.release boxID)
  let f := f.emit (Event.dbUpdate userQuestion.id
    (structUpdates (scoreMessage (GoFloat.fin (-1)) "Judging...")) (env.dbErr 1))
  let f := f.defer Event.cancel
  let compileScript := cmd.testScript
  let f := f.emit (Event.writeTempFile compileScript)
  match env.tempFile 0 with
  | Except.error err =>
    (f.emit (Event.dbUpdate userQuestion.id
      (structUpdates (scoreMessage (GoFloat.fin (-2)) ("Failed to save code as file: " ++ err)))
      (env.dbErr 2))).ret
  | Except.ok codeID =>
    let f := f.defer (Event.remove (env.shellFilename codeID))
    if codePath.length > 0 then
      let f := f.emit (Event.mkdirAll (codePath ++ "/" ++ "utils") env.mkdirErr)
      let f := f.call (getJsonfromdb env (codePath ++ "/" ++ "utils") cmd)
      let f := f.emit (Event.exec "cp"
        ["./sandbox/grp_parser/grp_parser", codePath ++ "/" ++ "utils"])
      match env.copyErr with
      | some err =>
        (f.emit (Event.dbUpdate userQuestion.id
          (structUpdates (scoreMessage (GoFloat.fin (-2))
            ("Failed to copy score parser: " ++ err)))
          (env.dbErr 2))).ret
      | none => compileAndExecute env boxID cmd codePath userQuestion codeID f
    else compileAndExecute env boxID cmd codePath userQuestion codeID f

/-- The model `v` after the `k`-th `Updates` call of the run, made with
`db.Model(&v)` and writing the columns `c`: GORM assigns the values to the model while
it builds the statement, so the model has them when the call returns no error and when
the error came up after the statement was built. -/
def updatedModel (env : RunEnv) (k : Nat) (v : UserQuestionTable) (c : Cols) :
    UserQuestionTable :=
  if env.dbErr k = none ∨ env.dbBuilt k = true then v.assigned c else v

/-- The function `runShellCommandByRepo`: look the scripts of the job up and run it. On a
miss the failure is written through `db.Model(&work.UQR)`, so `work.UQR` is the updated
model when `ReserveJob` copies it into the new Job. -/
def runShellCommandByRepo (env : RunEnv) (boxID : Int) (work : Job) : List Event :=
  match env.lookup with
  | Except.error err =>
    let cols := structUpdates (scoreMessage (GoFloat.fin (-2))
      ("Failed to find shell command for " ++ work.repo ++ ": " ++ err))
    [Event.dbUpdate work.uqr.id cols (env.dbErr 0),
      Event.release boxID,
      Event.reserveJob work.repo work.codePath (updatedModel env 0 work.uqr cols)]
  | Except.ok cmd => runShellCommand env boxID cmd work.codePath work.uqr

/-! ## The single-user rescore handler (`handlers/score.go`) -/

/-- The fields of `models.Question` the handlers use. -/
structure Question where
  id : Nat
  gitRepoURL : String
  isActive : Bool
  deriving DecidableEq

/-- The request and the answers of the outside world during one call of
`ReScoreUserQuestion`. -/
structure RescoreEnv where
  /-- The path parameter `question_id`. -/
  questionID : String
  /-- The user id of the JWT claims of the caller. -/
  userID : Nat
  /-- The answer of the database to `Where("id = ? AND is_active = ?", id, true)
  .First(&question)`: the active question with that id, if there is one. -/
  findQuestion : String → Option Question
  /-- The answer of the database to `Where("question_id = ? AND user_id = ?", id, user)
  .First(&uqr)`: the Submission-Link of that user for that question, if there is one. -/
  findLink : String → Nat → Option UserQuestionRelation
  /-- The error, if any, of `db.Create(&newScore)`. -/
  createErr : Option String
  /-- The primary key that `db.Create` gives the new row. -/
  newID : Nat
  /-- The value of `time.Now().UTC()`. -/
  now : Time
  /-- The value of `config.Config("REPO_FOLDER")`. -/
  repoFolder : String
  /-- The value of `config.Config("GIT_HOST")`. -/
  gitHost : String
  /-- The value of `uuid.New().String()`. -/
  uuid : String
  /-- The error, if any, of `git.PlainClone`. -/
  cloneErr : Option String
  /-- The error, if any, of the `Updates` call made after a failed clone. -/
  updateErr : Option String

/-- The clone directory of both rescore handlers:
`fmt.Sprintf("%s/%s", config.Config("REPO_FOLDER"), u.GitUserRepoURL+"/"+uuid.New().String())`. -/
def clonePath (repoFolder gitUserRepoURL uuid : String) : String :=
  repoFolder ++ "/" ++ (gitUserRepoURL ++ "/" ++ uuid)

/-- The goroutine started by `ReScoreUserQuestion` after it has responded. -/
def rescoreClone (env : RescoreEnv) (question : Question) (uqr : UserQuestionRelation)
    (newScore : UserQuestionTable) : List Event :=
  let codePath := clonePath env.repoFolder uqr.gitUserRepoURL env.uuid
  let cloned := Event.clone codePath ("http://" ++ env.gitHost ++ "/" ++ uqr.gitUserRepoURL)
  match env.cloneErr with
  | some _ =>
    [cloned,
      Event.dbUpdate newScore.id
        (structUpdates (scoreMessage (GoFloat.fin (-2)) "Failed to clone repository"))
        env.updateErr]
  | none =>
    [cloned, Event.chmod codePath, Event.reserveJob question.gitRepoURL codePath newScore]

/-- The handler `ReScoreUserQuestion`, followed by the goroutine it starts. -/
def ReScoreUserQuestion (env : RescoreEnv) : List Event :=
  let questionID := env.questionID
  if questionID = "" then [Event.respond 400 "Question ID is required"]
  else
    match env.findQuestion questionID with
    | none => [Event.respond 404 "Question not found"]
    | some question =>
      match env.findLink questionID env.userID with
      | none => [Event.respond 503 "Failed to re-score the question"]
      | some uqr =>
        let newScore : UserQuestionTable :=
          { UserQuestionTable.zero with
            uqr := uqr, score := GoFloat.fin (-3), judgeTime := env.now,
            message := "Waiting for judging..." }
        match env.createErr with
        | some err =>
          [Event.dbCreate newScore (some err),
            Event.respond 503 "Failed to create new score entry"]
        | none =>
          [Event.dbCreate newScore none, Event.respond 200 "Re-scoring the question"] ++
            rescoreClone env question uqr { newScore with id := env.newID }

/-! ## The bulk rescore handler (`handlers/score.go`) -/

/-- The request and the answers of the outside world during one call of
`ReScoreQuestion`. -/
structure BulkEnv where
  /-- The admin flag of the JWT claims of the caller. -/
  isAdmin : Bool
  /-- The user id of the JWT claims of the caller. -/
  userID : Nat
  /-- The path parameter `question_id`. -/
  questionID : String
  /-- The answer of the database to `Where("id = ?", id).First(&question)`. -/
  findQuestion : String → Option Question
  /-- The table of Submission-Links, in primary-key order. -/
  links : List UserQuestionRelation
  /-- The error, if any, of `db.Create(&newScores)`. -/
  createErr : Option String
  /-- The primary key that `db.Create` gives the `i`-th new row. -/
  newID : Nat → Nat
  /-- The value of `time.Now().UTC()`. -/
  now : Time
  /-- The value of `config.Config("REPO_FOLDER")`. -/
  repoFolder : String
  /-- The value of `config.Config("GIT_HOST")`. -/
  gitHost : String
  /-- The value of the `i`-th `uuid.New().String()`. -/
  uuid : Nat → String
  /-- The error, if any, of the `i`-th `git.PlainClone`. -/
  cloneErr : Nat → Option String
  /-- The error, if any, of the `Updates` call made after a failed clone. -/
  updateErr : Option String

/-- The Submission-Links bound to a question, whichever user they belong to. -/
def linksOf (links : List UserQuestionRelation) (question : Question) :
    List UserQuestionRelation :=
  links.filter (fun l => decide (l.questionID = question.id))

/-- The query `Where("question_id = ? AND user_id = ?", questionID, jwtClaims.UserID)
.First(&uqr)` of `ReScoreQuestion`, for the id that found `question`. `First` orders by
primary key and limits the result to one record, also when the destination is a slice,
and returns an error when there is no record. -/
def firstLinks (env : BulkEnv) (question : Question) : Option (List UserQuestionRelation) :=
  match (linksOf env.links question).filter (fun l => decide (l.userID = env.userID)) with
  | [] => none
  | l :: _ => some [l]

/-- The struct literal of a new Submission:
`models.UserQuestionTable{UQR: u, Score: -3, JudgeTime: now, Message: "Waiting for judging..."}`. -/
def waitingScore (u : UserQuestionRelation) (now : Time) : UserQuestionTable :=
  { UserQuestionTable.zero with
    uqr := u, score := GoFloat.fin (-3), judgeTime := now,
    message := "Waiting for judging..." }

/-- The rows of a batch insert with the primary keys the database gave them, the first
row being number `i`. -/
def withKeys (newID : Nat → Nat) : Nat → List UserQuestionTable → List UserQuestionTable
  | _, [] => []
  | i, row :: rows => { row with id := newID i } :: withKeys newID (i + 1) rows

/-- The loop of the goroutine started by `ReScoreQuestion`, from link number `i` on. Each
`ReserveJob` runs in a goroutine of its own; it is placed where it is started, and
`wg.Wait()` lets all of them finish before the deferred calls run. A failed clone returns
from the goroutine. -/
def bulkLoop (env : BulkEnv) (question : Question) :
    Nat → List (UserQuestionRelation × UserQuestionTable) → Frame → List Event
  | _, [], f => f.ret
  | i, (u, newScore) :: rest, f =>
    let codePath := clonePath env.repoFolder u.gitUserRepoURL (env.uuid i)
    let f := f.emit (Event.clone codePath ("http://" ++ env.gitHost ++ "/" ++ u.gitUserRepoURL))
    match env.cloneErr i with
    | some _ =>
      (f.emit (Event.dbUpdate newScore.id
        (structUpdates (scoreMessage (GoFloat.fin (-2)) "Failed to clone repository"))
        env.updateErr)).ret
    | none =>
      let f := f.emit (Event.chmod codePath)
      let f := f.defer (Event.removeAll codePath)
      let f := f.emit (Event.reserveJob question.gitRepoURL codePath newScore)
      bulkLoop env question (i + 1) rest f

/-- The handler `ReScoreQuestion`, followed by the goroutine it starts. -/
def ReScoreQuestion (env : BulkEnv) : List Event :=
  if !env.isAdmin then [Event.respond 401 "Unauthorized"]
  else
    let questionID := env.questionID
    if questionID = "" then [Event.respond 400 "Question ID is required"]
    else
      match env.findQuestion questionID with
      | none => [Event.respond 404 "Question not found"]
      | some question =>
        match firstLinks env question with
        | none => [Event.respond 503 "Failed to re-score the question"]
        | some uqr =>
          let newScores := uqr.map (fun u => waitingScore u env.now)
          match env.createErr with
          | some err =>
            newScores.map (fun row => Event.dbCreate row (some err)) ++
              [Event.respond 503 "Failed to create new score entry"]
          | none =>
            newScores.map (fun row => Event.dbCreate row none) ++
              [Event.respond 200 "Re-scoring the question"] ++
              bulkLoop env question 0 (uqr.zip (withKeys env.newID 0 newScores)) Frame.start

/-! ## The worker loop (`sandbox/runHandler.go`) -/

/-- Modelled from the spec: the slot pool and the job queue of the type `Sandbox`
(sections 4.1 and 4.2), which is declared outside the files under verification.
`inUse` holds the in-use flag of the slots `0` to `N - 1`, `queue` the pending jobs,
oldest first. -/
structure Sandbox where
  inUse : List Bool
  queue : List Job

/-- Modelled from the spec: the method `AvailableCount`, the `available()` of section
4.1: the number of free slots. -/
def Sandbox.AvailableCount (s : Sandbox) : Nat := s.inUse.count false

/-- Modelled from the spec: the method `IsJobEmpty`, the `is_empty()` of section 4.2. -/
def Sandbox.IsJobEmpty (s : Sandbox) : Bool := s.queue.isEmpty

/-- Modelled from the spec: the method `ReleaseJob`, the `pop()` of section 4.2: the
oldest job is taken off the queue. It is undefined on an empty queue. -/
def Sandbox.ReleaseJob (s : Sandbox) : Option (Job × Sandbox) :=
  match s.queue with
  | [] => none
  | job :: rest => some (job, { s with queue := rest })

/-- Modelled from the spec: the method `ReserveJob`, the `push(job)` of section 4.2: a
job of these three fields is appended at the tail of the queue. -/
def Sandbox.ReserveJob (s : Sandbox) (repo codePath : String) (uqr : UserQuestionTable) :
    Sandbox :=
  { s with queue := s.queue ++ [{ repo := repo, codePath := codePath, uqr := uqr }] }

/-- Modelled from the spec: the effect of the method `Reserve`, the `reserve(timeout)` of
section 4.1, given its answer: a returned slot is marked in use, and the answer `none`
has no side effect. -/
def Sandbox.reserved (s : Sandbox) (answer : Option Nat) : Sandbox :=
  match answer with
  | none => s
  | some box => { s with inUse := s.inUse.set box true }

/-- One pass through the body of the loop of `assignJob`, for the job just taken off the
queue and the answer of `Reserve`. -/
def assignBody (s : Sandbox) (job : Job) (answer : Option Nat) : Sandbox × List Event :=
  match answer with
  | none =>
    ((s.reserved none).ReserveJob job.repo job.codePath job.uqr,
      [Event.reserveJob job.repo job.codePath job.uqr])
  | some boxID => (s.reserved (some boxID), [Event.spawn (boxID : Int) job])

/-- The function `assignJob`: the worker loop of one tick. `reserve` is the slot that
`Reserve` answers with in a given state of the pool. The loop runs for at most `fuel`
passes; `none` means that it has not ended by then. -/
def assignJob (reserve : List Bool → Option Nat) : Nat → Sandbox → Option (Sandbox × List Event)
  | 0, _ => none
  | fuel + 1, s =>
    if s.AvailableCount > 0 && !s.IsJobEmpty then
      match s.ReleaseJob with
      | none => none
      | some (job, s) =>
        let pass := assignBody s job (reserve s.inUse)
        (assignJob reserve fuel pass.1).map (fun r => (r.1, pass.2 ++ r.2))
    else some (s, [])

/-- The claim about `Reserve` that a pool in which `reserve` succeeds exactly when some
slot is free makes: the answer is a free slot when there is one, and `none` otherwise. -/
def ReserveExact (reserve : List Bool → Option Nat) : Prop :=
  ∀ pool : List Bool,
    (false ∈ pool → ∃ box, reserve pool = some box ∧ pool[box]? = some false) ∧
    (false ∉ pool → reserve pool = none)

/-! ## The leaderboard (`handlers/score.go`) -/

/-- The type `QuestionScore`. -/
structure QuestionScore where
  questionID : Int
  questionTitle : String
  gitUserRepoURL : String
  score : GoFloat
  deriving DecidableEq

/-- The type `LeaderboardScore`: one entry of the leaderboard. -/
structure LeaderboardScore where
  userName : String
  totalScore : GoFloat
  questionScores : List QuestionScore
  deriving DecidableEq

/-- The local type `UserWithTotalScore`: one row of the total-score query. -/
structure UserWithTotalScore where
  userID : Nat
  userName : String
  isPublic : Bool
  totalScore : GoFloat
  deriving DecidableEq

/-- The local type `QuestionScoreDetail`: one row of the question-score query. -/
structure QuestionScoreDetail where
  userID : Nat
  questionID : Int
  questionTitle : String
  gitUserRepoURL : String
  score : GoFloat
  deriving DecidableEq

/-- The request and the answers of the database during one call of `GetLeaderboard`. -/
structure LeaderboardEnv where
  /-- The value of `strconv.Atoi(c.DefaultQuery("page", "1"))`. -/
  page : Int
  /-- The value of `strconv.Atoi(c.DefaultQuery("limit", "10"))`. -/
  limit : Int
  /-- The answer of the count query. -/
  countResult : Except String Int
  /-- The answer of the total-score query, ordered by total score, for an offset and a
  limit. -/
  usersResult : Int → Int → Except String (List UserWithTotalScore)
  /-- The answer of the question-score query for a list of user ids. -/
  questionScoresResult : List Nat → Except String (List QuestionScoreDetail)

/-- The response of `GetLeaderboard`: status, message, and the count and the entries of
`GetLeaderboardResponseData` when there are any. -/
structure LeaderboardResponse where
  status : Nat
  message : String
  data : Option (Int × List LeaderboardScore)
  deriving DecidableEq

/-- The map `userQuestionScores`: the question scores of each user id, in the order of
the query result. -/
def userQuestionScores (questionScores : List QuestionScoreDetail) : Nat → List QuestionScore :=
  questionScores.foldl
    (fun m qs => fun userID =>
      if userID = qs.userID then
        m userID ++ [{ questionID := qs.questionID, questionTitle := qs.questionTitle,
                       gitUserRepoURL := qs.gitUserRepoURL, score := qs.score }]
      else m userID)
    (fun _ => [])

/-- The entry of one user: a user who is not public is named `User_<user id>`. -/
def leaderboardEntry (scoresOf : Nat → List QuestionScore) (user : UserWithTotalScore) :
    LeaderboardScore :=
  let userName := if !user.isPublic then "User_" ++ toString user.userID else user.userName
  { userName := userName, totalScore := user.totalScore,
    questionScores := scoresOf user.userID }

/-- The loop that assembles `leaderboardScores`. -/
def leaderboardScores (usersWithScores : List UserWithTotalScore)
    (questionScores : List QuestionScoreDetail) : List LeaderboardScore :=
  usersWithScores.map (leaderboardEntry (userQuestionScores questionScores))

/-- The handler `GetLeaderboard`. -/
def GetLeaderboard (env : LeaderboardEnv) : LeaderboardResponse :=
  let offset := (env.page - 1) * env.limit
  match env.countResult with
  | Except.error _ =>
    { status := 503, message := "Failed to count users with scores", data := none }
  | Except.ok totalCount =>
    match env.usersResult offset env.limit with
    | Except.error _ =>
      { status := 503, message := "Failed to get leaderboard users", data := none }
    | Except.ok usersWithScores =>
      if usersWithScores.length = 0 then
        { status := 404, message := "No scores found", data := none }
      else
        let userIDs := usersWithScores.map (fun u => u.userID)
        match env.questionScoresResult userIDs with
        | Except.error _ =>
          { status := 503, message := "Failed to get question scores", data := none }
        | Except.ok questionScores =>
          { status := 200, message := "Successfully retrieved leaderboard",
            data := some (totalCount, leaderboardScores usersWithScores questionScores) }

/-- A row of the total-score query with another `user_name` when the user is not
public. -/
def renamePrivate (name : UserWithTotalScore → String) (user : UserWithTotalScore) :
    UserWithTotalScore :=
  if user.isPublic then user else { user with userName := name user }

/-- The same request on a database that differs only in the `user_name` of the users
who are not public. -/
def LeaderboardEnv.renamed (env : LeaderboardEnv) (name : UserWithTotalScore → String) :
    LeaderboardEnv :=
  { env with
    usersResult := fun offset limit =>
      match env.usersResult offset limit with
      | Except.error err => Except.error err
      | Except.ok users => Except.ok (users.map (renamePrivate name)) }

/-! ## The password reset handler (`handlers/user.go`) -/

/-- The fields of `models.User` the handler uses. -/
structure User where
  id : Nat
  userName : String
  isAdmin : Bool
  deriving DecidableEq

/-- The request and the answers of the outside world during one call of
`ResetPassword`. -/
structure ResetEnv where
  /-- The query parameter `token`. -/
  token : String
  /-- The answer of `c.ShouldBindJSON(&request)`: the field `NewPassword` of the bound
  request, or the error. -/
  body : Except String String
  /-- The helper `utils.ValidateResetToken`: the user id of a token, or an error. -/
  validateResetToken : String → Except String Nat
  /-- The table of users, in primary-key order. -/
  users : List User
  /-- The error, if any, that makes the `k`-th `db.First` of the call fail for a reason
  other than a missing record. -/
  queryErr : Nat → Option String
  /-- The helper `utils.GetToken`: the Gitea token of a user id, or an error. -/
  getToken : Nat → Except String String
  /-- The error, if any, of `gitea.NewClient`. -/
  newClientErr : Option String
  /-- The error, if any, of `client.AdminEditUser`. -/
  editErr : Option String

/-- The call `db.First(&row, cond)` number `k` of `ResetPassword`: the first user, in
primary-key order, that meets the condition; nothing when the query fails. -/
def firstUser (env : ResetEnv) (k : Nat) (cond : User → Bool) : Option User :=
  match env.queryErr k with
  | some _ => none
  | none => env.users.find? cond

/-- The handler `ResetPassword`. -/
def ResetPassword (env : ResetEnv) : List Event :=
  let token := env.token
  if token = "" then [Event.respond 400 "Missing reset token"]
  else
    match env.body with
    | Except.error _ => [Event.respond 400 "Invalid request body"]
    | Except.ok newPassword =>
      match env.validateResetToken token with
      | Except.error _ => [Event.respond 400 "Invalid or expired reset token"]
      | Except.ok userID =>
        match firstUser env 0 (fun u => decide (u.id = userID)) with
        | none => [Event.respond 404 "User not found"]
        | some user =>
          match firstUser env 1 (fun u => u.isAdmin) with
          | none => [Event.respond 404 "Admin user not found"]
          | some adminUser =>
            match env.getToken adminUser.id with
            | Except.error err => [Event.respond 503 err]
            | Except.ok adminToken =>
              match env.newClientErr with
              | some err => [Event.respond 503 err]
              | none =>
                match env.editErr with
                | some err =>
                  [Event.adminEditUser adminToken user.userName user.userName newPassword
                      (some err),
                    Event.respond 503 "Failed to update password in Gitea"]
                | none =>
                  [Event.adminEditUser adminToken user.userName user.userName newPassword
                      none,
                    Event.respond 200 "Password reset successfully"]

/-! ## Observations on a list of effects -/

/-- The slot ids passed to `Release`, in order. -/
def releases : List Event → List Int
  | [] => []
  | Event.release box :: es => box :: releases es
  | _ :: es => releases es

/-- The `Updates` calls made on Submission `sub`, in order, each with the answer of the
database. -/
def writesTo (sub : Nat) : List Event → List (Cols × Option String)
  | [] => []
  | Event.dbUpdate s cols err :: es =>
    if s = sub then (cols, err) :: writesTo sub es else writesTo sub es
  | _ :: es => writesTo sub es

/-- The row after a list of `Updates` calls: a call that failed leaves it as it was. -/
def Row.after (r : Row) : List (Cols × Option String) → Row
  | [] => r
  | (cols, none) :: ws => (r.write cols).after ws
  | (_, some _) :: ws => r.after ws

/-- The directories passed to `os.RemoveAll`, in order. -/
def removedDirs : List Event → List String
  | [] => []
  | Event.removeAll dir :: es => dir :: removedDirs es
  | _ :: es => removedDirs es

/-- The argument vectors of the calls of the isolation tool, in order. -/
def isolateCalls : List Event → List (List String)
  | [] => []
  | Event.exec name args :: es =>
    if name = "isolate" then args :: isolateCalls es else isolateCalls es
  | _ :: es => isolateCalls es

/-- The paths passed to `os.ReadFile`, in order. -/
def fileReads : List Event → List String
  | [] => []
  | Event.readFile path :: es => path :: fileReads es
  | _ :: es => fileReads es

/-- The jobs pushed on the queue by `ReserveJob`, in order. -/
def pushedJobs : List Event → List Job
  | [] => []
  | Event.reserveJob repo codePath uqr :: es =>
    { repo := repo, codePath := codePath, uqr := uqr } :: pushedJobs es
  | _ :: es => pushedJobs es

/-- The rows passed to `db.Create` that the database accepted, in order. -/
def createdRows : List Event → List UserQuestionTable
  | [] => []
  | Event.dbCreate row none :: es => row :: createdRows es
  | _ :: es => createdRows es

/-- The status codes of the responses sent, in order. -/
def responses : List Event → List Nat
  | [] => []
  | Event.respond status _ :: es => status :: responses es
  | _ :: es => responses es

/-- Where the score of a result write comes from: it is the failure sentinel `-2`, the
`0` of a failed compile, or the value that `strconv.ParseFloat` returned for the trimmed
content of `score.txt`. -/
def ScoreOrigin (env : RunEnv) (c : Cols) : Prop :=
  ∀ x, c.score = some x →
    x = GoFloat.fin (-2) ∨ x = GoFloat.fin 0 ∨
      ∃ score, env.scoreFile = Except.ok score ∧
        env.parseFloat (trimSpace score) = Except.ok x

/-- The errors that `os.MkdirAll` and `ioutil.WriteFile` returned, in order. -/
def stagingErrors : List Event → List String
  | [] => []
  | Event.mkdirAll _ (some err) :: es => err :: stagingErrors es
  | Event.writeFile _ _ (some err) :: es => err :: stagingErrors es
  | _ :: es => stagingErrors es

/-- Whether the directory `dir` is on disk after a list of effects, given whether it was
before: a successful clone into it creates it, `os.RemoveAll` on it removes it. -/
def dirPresent (dir : String) : Bool → List Event → Bool
  | before, [] => before
  | before, Event.clone path _ :: es =>
    if path = dir then dirPresent dir true es else dirPresent dir before es
  | before, Event.removeAll path :: es =>
    if path = dir then dirPresent dir false es else dirPresent dir before es
  | before, _ :: es => dirPresent dir before es

/-- The steps of a run whose order matters: a write to the Submission, with the answer
of the database, and a call of the isolation tool. -/
inductive Milestone where
  | write (cols : Cols) (err : Option String)
  | isolate (args : List String)
  deriving DecidableEq

/-- The writes to Submission `sub` and the calls of the isolation tool, in the order in
which they happen. -/
def milestones (sub : Nat) : List Event → List Milestone
  | [] => []
  | Event.dbUpdate s cols err :: es =>
    if s = sub then Milestone.write cols err :: milestones sub es else milestones sub es
  | Event.exec name args :: es =>
    if name = "isolate" then Milestone.isolate args :: milestones sub es
    else milestones sub es
  | _ :: es => milestones sub es

/-- The calls of the isolation tool that a run can make: none, the compile call alone,
or the compile call followed by the execute call, the latter only after a compile that
succeeded. -/
def PhaseCalls (env : RunEnv) (boxID : Int) (codePath : String)
    (calls : List (List String)) : Prop :=
  calls = [] ∨
  (∃ codeID, calls = [compileArgs env boxID (env.shellFilename codeID) codePath]) ∨
  (∃ codeID execodeID,
    (runCompile env boxID (env.shellFilename codeID) codePath).2.1 = true ∧
    calls = [compileArgs env boxID (env.shellFilename codeID) codePath,
      executeArgs env boxID (env.shellFilename execodeID) codePath])

/-- The run gets as far as the result write at the end of the harvest phase, and `result`
is what it writes there: both temporary files were written, the score parser was copied
(when there is a code path), the compile step succeeded, `score.txt` was read and its
trimmed content parsed, and `message.txt` was read. -/
def ReachesResult (env : RunEnv) (codePath : String) (result : Cols) : Prop :=
  (∃ codeID, env.tempFile 0 = Except.ok codeID) ∧
  (codePath.length > 0 → env.copyErr = none) ∧
  env.compile.err = none ∧ ¬ ("error:".toList <:+: env.compile.out.toList) ∧
  (∃ execodeID, env.tempFile 1 = Except.ok execodeID) ∧
  ∃ score scoreFloat message, env.scoreFile = Except.ok score ∧
    env.parseFloat (trimSpace score) = Except.ok scoreFloat ∧
    env.messageFile = Except.ok message ∧
    result = structUpdates (scoreMessage scoreFloat (trimSpace message))

/-- What follows the terminal write `t` of a run, given the condition `reached` under
which a write is the result write: the fallback write of `-2` when `t` is the result
write and the database rejected it, and nothing in every other case. -/
def FallbackAfter (env : RunEnv) (reached : Cols → Prop) (t : Cols)
    (fallback : List Milestone) : Prop :=
  (∃ err, reached t ∧ env.dbErr 2 = some err ∧
    fallback = [Milestone.write
      (structUpdates (scoreMessage (GoFloat.fin (-2)) ("Failed to update score: " ++ err)))
      (env.dbErr 3)]) ∨
  ((env.dbErr 2 = none ∨ ¬ ∃ r, reached r) ∧ fallback = [])

/-- The calls of `AdminEditUser`, in order: the account edited, the login name and the
password set. -/
def passwordChanges : List Event → List (String × String × String)
  | [] => []
  | Event.adminEditUser _ user loginName password _ :: es =>
    (user, loginName, password) :: passwordChanges es
  | _ :: es => passwordChanges es

/-- The runners started, in order: slot and job. -/
def spawned : List Event → List (Int × Job)
  | [] => []
  | Event.spawn box job :: es => (box, job) :: spawned es
  | _ :: es => spawned es

/-- The directories cloned into, in order. -/
def clonedPaths : List Event → List String
  | [] => []
  | Event.clone path _ :: es => path :: clonedPaths es
  | _ :: es => clonedPaths es

/-- The contents written to files, in order. -/
def writtenFiles : List Event → List (String × FileContent)
  | [] => []
  | Event.writeFile path content _ :: es => (path, content) :: writtenFiles es
  | _ :: es => writtenFiles es

/-- A terminal score: the failure sentinel `-2` or a finite non-negative number. -/
def isTerminal : GoFloat → Prop
  | GoFloat.fin q => q = -2 ∨ 0 ≤ q
  | _ => False

instance (s : GoFloat) : Decidable (isTerminal s) := by
  cases s <;> unfold isTerminal <;> infer_instance

/-- Every `Updates` call issued while the row holds a terminal score leaves score and
message as they are. -/
def TerminalKept (r : Row) : List (Cols × Option String) → Prop
  | [] => True
  | w :: ws =>
    (isTerminal r.score →
      (r.after [w]).score = r.score ∧ (r.after [w]).message = r.message) ∧
    TerminalKept (r.after [w]) ws

/-- Whether `TerminalKept` holds can be computed. -/
def TerminalKept.dec : (r : Row) → (ws : List (Cols × Option String)) →
    Decidable (TerminalKept r ws)
  | _, [] => isTrue trivial
  | r, w :: ws =>
    @instDecidableAnd _ _ inferInstance (TerminalKept.dec (r.after [w]) ws)

instance (r : Row) (ws : List (Cols × Option String)) : Decidable (TerminalKept r ws) :=
  TerminalKept.dec r ws

/-- The shape of the writes of one run after mark-running: one write, alone or
followed by the fallback write of `-2`, the latter only when the database rejected the
first. -/
def TerminalShape (env : RunEnv) (ws : List (Cols × Option String)) : Prop :=
  ∃ t, ws = [(t, env.dbErr 2)] ∨
    ∃ err, env.dbErr 2 = some err ∧
      ws = [(t, some err),
        (structUpdates (scoreMessage (GoFloat.fin (-2)) ("Failed to update score: " ++ err)),
          env.dbErr 3)]

/-- The runs of one job one after the other: a run that misses the script lookup pushes
a job back on the queue, and the next run is on the job that was pushed. -/
def runJob : List (RunEnv × Int) → Job → List Event
  | [], _ => []
  | (env, boxID) :: rest, work =>
    runShellCommandByRepo env boxID work ++
      (match pushedJobs (runShellCommandByRepo env boxID work) with
       | [] => []
       | next :: _ => runJob rest next)

/-! ## A reference instance of the number conversions

The theorems below hold for every `RunEnv`. To run the model on concrete files, the
conversions of `strconv` and `encoding/json` are instantiated here: IEEE 754 binary64
rounding (to nearest, ties to even) and the shortest decimal that reads back as the same
float64, which is what `strconv.FormatFloat(x, fmt, -1, 64)` prints. -/

/-- The fraction `n / d` rounded to the nearest natural number, ties to even. -/
def roundHalfEven (n d : Nat) : Nat :=
  let k := n / d
  let r := n % d
  if 2 * r < d then k else if d < 2 * r then k + 1 else if k % 2 = 0 then k else k + 1

/-- The largest `l` with `b ^ l ≤ n / d`, for positive `n` and `d` and base `b`. -/
def floorLog (b n d : Nat) : Int :=
  let l : Int := ((Nat.toDigits b n).length : Int) - ((Nat.toDigits b d).length : Int)
  if d * b ^ l.toNat ≤ n * b ^ (-l).toNat then l else l - 1

/-- The float64 nearest to `q`, given by its value: a 53-bit significand times a power of
two not below `2 ^ (-1074)`. `none` when `q` rounds beyond the largest float64. -/
def nearestFloat64 (q : ℚ) : Option ℚ :=
  if q = 0 then some 0 else
  let n := q.num.natAbs
  let d := q.den
  let e := max (floorLog 2 n d - 52) (-1074)
  let m := roundHalfEven (n * 2 ^ (-e).toNat) (d * 2 ^ e.toNat)
  if 971 < e ∨ (e = 971 ∧ 2 ^ 53 ≤ m) then none
  else some (mkRat (q.num.sign * (m * 2 ^ e.toNat : Nat)) (2 ^ (-e).toNat))

/-- The number `q` rounded to `k` significant decimal digits. -/
def roundSig (q : ℚ) (k : Nat) : ℚ :=
  if q = 0 then 0 else
  let n := q.num.natAbs
  let d := q.den
  let e := floorLog 10 n d - (k - 1 : Nat)
  let m := roundHalfEven (n * 10 ^ (-e).toNat) (d * 10 ^ e.toNat)
  mkRat (q.num.sign * (m * 10 ^ e.toNat : Nat)) (10 ^ (-e).toNat)

/-- Search, from `k` significant digits upwards, for the first decimal that reads back
as the float64 `x`. -/
def shortestFrom (x : ℚ) : Nat → Nat → ℚ
  | 0, _ => x
  | fuel + 1, k =>
    if nearestFloat64 (roundSig x k) = some x then roundSig x k
    else shortestFrom x fuel (k + 1)

/-- The number denoted by the shortest decimal digits that read back as the float64 `x`;
seventeen digits always suffice. -/
def shortestDecimal (x : ℚ) : ℚ := shortestFrom x 17 1

/-- The value of a string of decimal digits. -/
def digitsValue (ds : List Char) : Nat :=
  ds.foldl (fun acc c => 10 * acc + (c.toNat - 48)) 0

/-- The sign of a numeral that starts with `-`. -/
def numeralSign (cs : List Char) : Int :=
  match cs with
  | '-' :: _ => -1
  | _ => 1

/-- The numeral without its sign; `plus` tells whether a leading `+` is allowed. -/
def numeralBody (plus : Bool) (cs : List Char) : List Char :=
  match cs with
  | '-' :: body => body
  | '+' :: body => if plus then body else cs
  | _ => cs

/-- The digits after the decimal point of what follows the integer part; `none` when
what follows is neither empty nor a point. -/
def fractionDigits (rest : List Char) : Option (List Char) :=
  match rest with
  | [] => some []
  | '.' :: digits => some digits
  | _ => none

/-- The message of the error that `strconv.ParseFloat` returns for a string. -/
def parseFloatError (s why : String) : String :=
  "strconv.ParseFloat: parsing " ++ s.quote ++ ": " ++ why

/-- The function `strconv.ParseFloat(s, 64)` on plain decimal numerals (sign, digits,
optional point and digits) and on the names of the infinities and of not-a-number; the
other forms the library reads (exponents, hexadecimal, underscores) are not covered and
are reported as syntax errors here. -/
def parseFloatRef (s : String) : Except String GoFloat :=
  let cs := s.toList
  let body := numeralBody true cs
  let name := String.mk (body.map Char.toLower)
  if String.mk (cs.map Char.toLower) = "nan" then Except.ok GoFloat.nan
  else if name = "inf" ∨ name = "infinity" then
    Except.ok (if numeralSign cs = -1 then GoFloat.negInf else GoFloat.posInf)
  else
    let whole := body.takeWhile Char.isDigit
    match fractionDigits (body.dropWhile Char.isDigit) with
    | none => Except.error (parseFloatError s "invalid syntax")
    | some frac =>
      if frac.all Char.isDigit ∧ whole ++ frac ≠ [] then
        match nearestFloat64
          (mkRat (numeralSign cs * (digitsValue (whole ++ frac) : Int)) (10 ^ frac.length)) with
        | some x => Except.ok (GoFloat.fin x)
        | none => Except.error (parseFloatError s "value out of range")
      else Except.error (parseFloatError s "invalid syntax")

/-- The integer written by an integer literal of JSON: an optional minus sign, then `0`
or digits that do not start with `0`. -/
def parseInteger (s : String) : Option Int :=
  let cs := s.toList
  let body := numeralBody false cs
  if body ≠ [] ∧ body.all Char.isDigit ∧ (body.head? ≠ some '0' ∨ body.length = 1) then
    some (numeralSign cs * (digitsValue body : Int))
  else none

/-- The JSON grammar restricted to texts that are one integer literal. -/
def parseIntegerJson (s : String) : Option Json :=
  (parseInteger s).map (fun i => Json.num i)

/-- The JSON library with the number conversions of Go, over a given grammar. -/
def goJson (parse : String → Option Json) : JsonLib :=
  { parse := parse, toFloat64 := nearestFloat64, floatText := shortestDecimal }

/-! ## Concrete runs -/

/-- The scripts of a question: compile with `gcc`, run the binary into `score.txt`. -/
def sampleScripts : QuestionTestScript :=
  { testScript := "gcc -o build main.c"
    executeScript := "./build > score.txt && echo OK > message.txt"
    scoreScript := "100" }

/-- A Submission-Link: user 5 on question 7. -/
def sampleLink : UserQuestionRelation :=
  { id := 3, userID := 5, questionID := 7, gitUserRepoURL := "alice/q7" }

/-- A queued Submission, as the enqueue side creates it. -/
def sampleSubmission : UserQuestionTable :=
  { id := 11, uqr := sampleLink, score := GoFloat.fin (-3), judgeTime := 1000,
    message := "Waiting for judging..." }

/-- The database row of `sampleSubmission`. -/
def waitingRow : Row :=
  { score := GoFloat.fin (-3), message := "Waiting for judging...", judgeTime := 1000 }

/-- The directory the repository of the user was cloned into. -/
def sampleCodePath : String := "/repos/alice/q7/0b5e"

/-- The job of `sampleSubmission`. -/
def sampleJob : Job :=
  { repo := "teacher/q7", codePath := sampleCodePath, uqr := sampleSubmission }

/-- A run in which every step succeeds, the execute script leaves `score.txt` and
`message.txt` with the given contents. -/
def harvestEnv (scoreTxt messageTxt : String) : RunEnv :=
  { now := 2000
    lookup := Except.ok sampleScripts
    dbErr := fun _ => none
    dbBuilt := fun _ => true
    tempFile := fun k => Except.ok ("code" ++ toString k)
    shellFilename := fun id => "/tmp/" ++ id ++ ".sh"
    codeStorageFolder := "/sandbox/code"
    filepathJoin := fun dir file => dir ++ "/" ++ file
    mkdirErr := none
    writeFileErr := none
    copyErr := none
    compile := { err := none, out := "" }
    execute := { err := none, out := "" }
    scoreFile := Except.ok scoreTxt
    messageFile := Except.ok messageTxt
    parseFloat := parseFloatRef
    json := goJson parseIntegerJson }

/-- The run of scenario S1: `score.txt` holds `85.5`, `message.txt` holds `OK`. -/
def successEnv : RunEnv := harvestEnv "85.5\n" "OK\n"

/-- A run whose script lookup finds no record. -/
def lookupMissEnv : RunEnv :=
  { successEnv with lookup := Except.error "record not found" }

/-- A run whose compile step exits with a non-zero code. -/
def compileExitEnv : RunEnv :=
  { successEnv with
    compile := { err := some "exit status 1", out := "main.c:1:10: fatal\n" } }

/-- A run whose execute step leaves no `score.txt`. -/
def noScoreEnv : RunEnv :=
  { successEnv with
    scoreFile := Except.error "open /repos/alice/q7/0b5e/score.txt: no such file or directory" }

/-- A rescore request of user 5 for question 7, with the given answer of the clone. -/
def rescoreEnv (cloneErr : Option String) : RescoreEnv :=
  { questionID := "7"
    userID := 5
    findQuestion := fun id =>
      if id = "7" then some { id := 7, gitRepoURL := "teacher/q7", isActive := true } else none
    findLink := fun id user => if id = "7" ∧ user = 5 then some sampleLink else none
    createErr := none
    newID := 11
    now := 1000
    repoFolder := "/repos"
    gitHost := "git.example.org"
    uuid := "0b5e"
    cloneErr := cloneErr
    updateErr := none }

/-- A second Submission-Link of question 7: that of user 6. -/
def otherLink : UserQuestionRelation :=
  { id := 4, userID := 6, questionID := 7, gitUserRepoURL := "bob/q7" }

/-- A bulk rescore request for question 7, to which the links of users 5 and 6 are
bound, by the given caller. -/
def bulkEnv (isAdmin : Bool) (userID : Nat) : BulkEnv :=
  { isAdmin := isAdmin
    userID := userID
    questionID := "7"
    findQuestion := fun id =>
      if id = "7" then some { id := 7, gitRepoURL := "teacher/q7", isActive := true } else none
    links := [sampleLink, otherLink]
    createErr := none
    newID := fun i => 20 + i
    now := 1000
    repoFolder := "/repos"
    gitHost := "git.example.org"
    uuid := fun i => "uuid" ++ toString i
    cloneErr := fun _ => none
    updateErr := none }

/-- The question that `bulkEnv` finds. -/
def sampleQuestion : Question := { id := 7, gitRepoURL := "teacher/q7", isActive := true }

/-- A run in which the `utils` directory cannot be created and `score.json` cannot be
written, while the copy of the parser and all later steps succeed. -/
def stagingFailEnv : RunEnv :=
  { successEnv with
    mkdirErr := some "mkdir /repos/alice/q7/0b5e/utils: permission denied"
    writeFileErr := some "open /repos/alice/q7/0b5e/utils/score.json: permission denied" }

/-- A run in which the database goes down after mark-running: the result write and the
fallback write are both rejected. -/
def dbDownEnv : RunEnv :=
  { successEnv with dbErr := fun k => if 2 ≤ k then some "connection refused" else none }

/-- The rows of a total-score query: `alice` is public, `bob` is not. -/
def sampleBoard : List UserWithTotalScore :=
  [{ userID := 5, userName := "alice", isPublic := true, totalScore := GoFloat.fin 200 },
   { userID := 6, userName := "bob", isPublic := false, totalScore := GoFloat.fin 150 }]

/-- The rows of the question-score query for `sampleBoard`. -/
def sampleDetails : List QuestionScoreDetail :=
  [{ userID := 6, questionID := 7, questionTitle := "Two Sum", gitUserRepoURL := "bob/q7",
     score := GoFloat.fin 150 },
   { userID := 5, questionID := 7, questionTitle := "Two Sum", gitUserRepoURL := "alice/q7",
     score := GoFloat.fin 100 },
   { userID := 5, questionID := 8, questionTitle := "Add", gitUserRepoURL := "alice/q8",
     score := GoFloat.fin 100 }]

/-- A leaderboard request whose three queries succeed. -/
def boardEnv : LeaderboardEnv :=
  { page := 1
    limit := 10
    countResult := Except.ok 3
    usersResult := fun _ _ => Except.ok sampleBoard
    questionScoresResult := fun _ => Except.ok sampleDetails }

/-- A password reset request: the token of user 5, one admin (user 1) in the table. -/
def resetEnv : ResetEnv :=
  { token := "tok-5"
    body := Except.ok "secret123"
    validateResetToken := fun t =>
      if t = "tok-5" then Except.ok 5 else Except.error "invalid token"
    users := [{ id := 1, userName := "root", isAdmin := true },
              { id := 5, userName := "alice", isAdmin := false },
              { id := 6, userName := "bob", isAdmin := false }]
    queryErr := fun _ => none
    getToken := fun id => if id = 1 then Except.ok "admin-token" else Except.error "no token"
    newClientErr := none
    editErr := none }

/-- A pool that answers `Reserve` with the lowest free slot. -/
def lowestFree : List Bool → Option Nat
  | [] => none
  | false :: _ => some 0
  | true :: pool => (lowestFree pool).map (fun box => box + 1)

/-- A second job, for the Submission of user 6. -/
def otherJob : Job :=
  { repo := "teacher/q7", codePath := "/repos/bob/q7/77aa",
    uqr := { id := 12, uqr := otherLink, score := GoFloat.fin (-3), judgeTime := 1001,
             message := "Waiting for judging..." } }

/-! ## Facts about the observations -/

theorem releases_append (xs ys : List Event) :
    releases (xs ++ ys) = releases xs ++ releases ys := by
  induction xs with
  | nil => rfl
  | cons e es ih => cases e <;> simp [releases, ih]

theorem releases_getJsonfromdb (env : RunEnv) (path : String) (row : QuestionTestScript) :
    releases (getJsonfromdb env path row) = [] := by
  simp [getJsonfromdb, releases]

theorem releases_harvest (env : RunEnv) (codePath : String) (uq : UserQuestionTable)
    (f : Frame) :
    releases (harvest env codePath uq f) = releases f.trace ++ releases f.defers := by
  unfold harvest
  repeat' split
  all_goals simp [Frame.emit, Frame.ret, Frame.defer, releases_append, releases]

theorem runCompile_events (env : RunEnv) (box : Int) (shellCommand codePath : String) :
    (runCompile env box shellCommand codePath).1
      = [Event.exec "isolate" (compileArgs env box shellCommand codePath)] := by
  unfold runCompile
  repeat' split
  all_goals rfl

theorem runExecute_events (env : RunEnv) (box : Int) (shellCommand codePath : String) :
    (runExecute env box shellCommand codePath).1
      = [Event.exec "isolate" (executeArgs env box shellCommand codePath)] := by
  unfold runExecute
  split <;> rfl

theorem releases_compileAndExecute (env : RunEnv) (boxID : Int) (cmd : QuestionTestScript)
    (codePath : String) (uq : UserQuestionTable) (codeID : String) (f : Frame) :
    releases (compileAndExecute env boxID cmd codePath uq codeID f)
      = releases f.trace ++ releases f.defers := by
  unfold compileAndExecute
  simp only [Frame.emit, Frame.ret, Frame.defer, Frame.call]
  split
  · simp [releases_append, releases, runCompile_events]
  · split <;> simp [Frame.ret, releases_append, releases, releases_harvest,
      runExecute_events, runCompile_events]

theorem releases_runShellCommand (env : RunEnv) (boxID : Int) (cmd : QuestionTestScript)
    (codePath : String) (uq : UserQuestionTable) :
    releases (runShellCommand env boxID cmd codePath uq) = [boxID] := by
  unfold runShellCommand
  repeat' split
  all_goals simp [Frame.emit, Frame.ret, Frame.defer, Frame.call, Frame.start,
    releases_append, releases, releases_compileAndExecute, releases_getJsonfromdb]

theorem writesTo_append (sub : Nat) (xs ys : List Event) :
    writesTo sub (xs ++ ys) = writesTo sub xs ++ writesTo sub ys := by
  induction xs with
  | nil => rfl
  | cons e es ih =>
    cases e <;> simp [writesTo, ih]
    split <;> simp

theorem writesTo_harvest (env : RunEnv) (codePath : String) (uq : UserQuestionTable)
    (f : Frame) :
    ∃ ws, TerminalShape env ws ∧
      writesTo uq.id (harvest env codePath uq f)
        = writesTo uq.id f.trace ++ ws ++ writesTo uq.id f.defers := by
  unfold harvest
  simp only [Frame.emit, Frame.ret, Frame.defer]
  repeat' split
  all_goals simp only [writesTo_append, writesTo, List.append_assoc, if_true, List.nil_append,
    List.append_cancel_left_eq, List.singleton_append, List.cons_append]
  · exact ⟨_, ⟨_, Or.inl rfl⟩, rfl⟩
  · exact ⟨_, ⟨_, Or.inl rfl⟩, rfl⟩
  · exact ⟨_, ⟨_, Or.inl rfl⟩, rfl⟩
  · rename_i err h
    simp only [h]
    exact ⟨_, ⟨_, Or.inr ⟨err, h, rfl⟩⟩, rfl⟩
  · exact ⟨_, ⟨_, Or.inl rfl⟩, rfl⟩

theorem writesTo_compileAndExecute (env : RunEnv) (boxID : Int) (cmd : QuestionTestScript)
    (codePath : String) (uq : UserQuestionTable) (codeID : String) (f : Frame) :
    ∃ ws, TerminalShape env ws ∧
      writesTo uq.id (compileAndExecute env boxID cmd codePath uq codeID f)
        = writesTo uq.id f.trace ++ ws ++ writesTo uq.id f.defers := by
  unfold compileAndExecute
  simp only [Frame.emit, Frame.ret, Frame.defer, Frame.call]
  split
  · simp only [writesTo_append, writesTo, List.append_assoc, if_true, List.nil_append,
      List.singleton_append, List.cons_append, runCompile_events, List.append_nil]
    exact ⟨_, ⟨_, Or.inl rfl⟩, rfl⟩
  · split
    · simp only [writesTo_append, writesTo, List.append_assoc, if_true, List.nil_append,
        List.singleton_append, List.cons_append, runCompile_events, List.append_nil]
      exact ⟨_, ⟨_, Or.inl rfl⟩, rfl⟩
    · obtain ⟨ws, hshape, hws⟩ := writesTo_harvest env codePath uq
        { trace := f.trace ++ (runCompile env boxID (env.shellFilename codeID) codePath).1 ++
            [Event.writeTempFile (cmd.executeScript ++ "\nrm build -rf")] ++
            (runExecute env boxID (env.shellFilename ‹String›) codePath).1,
          defers := Event.remove (env.shellFilename ‹String›) :: f.defers }
      refine ⟨ws, hshape, ?_⟩
      rw [hws]
      simp [writesTo_append, writesTo, runCompile_events, runExecute_events]

theorem writesTo_runShellCommand (env : RunEnv) (boxID : Int) (cmd : QuestionTestScript)
    (codePath : String) (uq : UserQuestionTable) :
    ∃ ws, TerminalShape env ws ∧
      writesTo uq.id (runShellCommand env boxID cmd codePath uq)
        = (structUpdates { UserQuestionTable.zero with judgeTime := env.now }, env.dbErr 0) ::
          (structUpdates (scoreMessage (GoFloat.fin (-1)) "Judging..."), env.dbErr 1) :: ws := by
  unfold runShellCommand
  simp only [Frame.emit, Frame.ret, Frame.defer, Frame.call, Frame.start]
  split
  · simp only [writesTo_append, writesTo, List.append_assoc, if_true, List.nil_append,
      List.singleton_append, List.cons_append, List.append_nil]
    exact ⟨_, ⟨_, Or.inl rfl⟩, rfl⟩
  · split
    · split
      · simp only [writesTo_append, writesTo, List.append_assoc, if_true, List.nil_append,
          List.singleton_append, List.cons_append, List.append_nil, getJsonfromdb]
        exact ⟨_, ⟨_, Or.inl rfl⟩, rfl⟩
      · obtain ⟨ws, hshape, hws⟩ := writesTo_compileAndExecute env boxID cmd codePath uq
          ‹String› _
        refine ⟨ws, hshape, ?_⟩
        rw [hws]
        simp [writesTo_append, writesTo, getJsonfromdb]
    · obtain ⟨ws, hshape, hws⟩ := writesTo_compileAndExecute env boxID cmd codePath uq
        ‹String› _
      refine ⟨ws, hshape, ?_⟩
      rw [hws]
      simp [writesTo_append, writesTo]

theorem append_ne_empty (a b : String) (h : a ≠ "") : a ++ b ≠ "" := by
  intro hab
  apply h
  have hdata : (a ++ b).data = [] := by rw [hab]
  rw [String.data_append] at hdata
  exact String.ext (List.append_eq_nil.mp hdata).1

theorem isolateCalls_append (xs ys : List Event) :
    isolateCalls (xs ++ ys) = isolateCalls xs ++ isolateCalls ys := by
  induction xs with
  | nil => rfl
  | cons e es ih =>
    cases e <;> simp [isolateCalls, ih]
    split <;> simp

theorem fileReads_append (xs ys : List Event) :
    fileReads (xs ++ ys) = fileReads xs ++ fileReads ys := by
  induction xs with
  | nil => rfl
  | cons e es ih => cases e <;> simp [fileReads, ih]

theorem runCompile_output (env : RunEnv) (box : Int) (shellCommand codePath : String) :
    (runCompile env box shellCommand codePath).2.2
      = (match env.compile.err with
        | some err => err ++ "\n" ++ env.compile.out
        | none => env.compile.out) := by
  unfold runCompile
  repeat' split
  all_goals simp_all

theorem runCompile_success (env : RunEnv) (box : Int) (shellCommand codePath : String) :
    (runCompile env box shellCommand codePath).2.1
      = (env.compile.err.isNone && !stringsContains env.compile.out "error:") := by
  unfold runCompile
  repeat' split
  all_goals simp_all

theorem writesTo_reach_harvest (env : RunEnv) (boxID : Int) (cmd : QuestionTestScript)
    (codePath : String) (uq : UserQuestionTable) (codeID execodeID : String)
    (htemp : env.tempFile 0 = Except.ok codeID)
    (hcopy : codePath.length > 0 → env.copyErr = none)
    (hcompile : (runCompile env boxID (env.shellFilename codeID) codePath).2.1 = true)
    (hexec : env.tempFile 1 = Except.ok execodeID) :
    ∃ f : Frame, writesTo uq.id f.defers = [] ∧
      writesTo uq.id f.trace
        = [(structUpdates { UserQuestionTable.zero with judgeTime := env.now }, env.dbErr 0),
           (structUpdates (scoreMessage (GoFloat.fin (-1)) "Judging..."), env.dbErr 1)] ∧
      runShellCommand env boxID cmd codePath uq = harvest env codePath uq f := by
  unfold runShellCommand
  simp only [Frame.emit, Frame.ret, Frame.defer, Frame.call, Frame.start, htemp]
  by_cases hlen : codePath.length > 0
  · simp only [hlen, hcopy hlen, compileAndExecute, hcompile, hexec, Frame.emit, Frame.defer,
      Frame.call, if_true]
    refine ⟨_, ?_, ?_, rfl⟩
    · simp [writesTo]
    · simp [writesTo_append, writesTo, getJsonfromdb, runCompile_events, runExecute_events]
  · simp only [hlen, compileAndExecute, hcompile, hexec, Frame.emit, Frame.defer,
      Frame.call, if_false]
    refine ⟨_, ?_, ?_, rfl⟩
    · simp [writesTo]
    · simp [writesTo_append, writesTo, runCompile_events, runExecute_events]

mutual
theorem encoded_decode (lib : JsonLib) :
    ∀ (v : Json) (g : GoValue), decode lib v = some g →
      (∀ q ∈ v.numbers, NumberKept lib q) → encoded lib g = v
  | Json.null, g, h, _ => by
    simp only [decode, Option.some.injEq] at h
    subst h
    simp [encoded]
  | Json.bool b, g, h, _ => by
    simp only [decode, Option.some.injEq] at h
    subst h
    simp [encoded]
  | Json.str s, g, h, _ => by
    simp only [decode, Option.some.injEq] at h
    subst h
    simp [encoded]
  | Json.num q, g, h, hk => by
    simp only [decode, Option.map_eq_some'] at h
    obtain ⟨x, hx, hg⟩ := h
    subst hg
    have hq : NumberKept lib q := hk q (by simp [Json.numbers])
    simp [encoded, hq x hx]
  | Json.arr items, g, h, hk => by
    simp only [decode, Option.map_eq_some'] at h
    obtain ⟨gs, hgs, hg⟩ := h
    subst hg
    have hrec := encodedList_decodeList lib items gs hgs
      (fun q hq => hk q (by simpa [Json.numbers] using hq))
    simp [encoded, hrec]
  | Json.obj members, g, h, hk => by
    simp only [decode, Option.map_eq_some'] at h
    obtain ⟨gs, hgs, hg⟩ := h
    subst hg
    have hrec := encodedMembers_decodeMembers lib members gs hgs
      (fun q hq => hk q (by simpa [Json.numbers] using hq))
    simp [encoded, hrec]
theorem encodedList_decodeList (lib : JsonLib) :
    ∀ (vs : List Json) (gs : List GoValue), decodeList lib vs = some gs →
      (∀ q ∈ numbersList vs, NumberKept lib q) → encodedList lib gs = vs
  | [], gs, h, _ => by
    simp only [decodeList, Option.some.injEq] at h
    subst h
    simp [encodedList]
  | v :: vs, gs, h, hk => by
    simp only [decodeList] at h
    cases hv : decode lib v with
    | none => simp [hv] at h
    | some g =>
      cases hvs : decodeList lib vs with
      | none => simp [hv, hvs] at h
      | some gs0 =>
        simp only [hv, hvs, Option.some.injEq] at h
        subst h
        have h1 := encoded_decode lib v g hv
          (fun q hq => hk q (by simp [numbersList, hq]))
        have h2 := encodedList_decodeList lib vs gs0 hvs
          (fun q hq => hk q (by simp [numbersList, hq]))
        simp [encodedList, h1, h2]
theorem encodedMembers_decodeMembers (lib : JsonLib) :
    ∀ (ms : List (String × Json)) (gs : List (String × GoValue)),
      decodeMembers lib ms = some gs →
      (∀ q ∈ numbersMembers ms, NumberKept lib q) → encodedMembers lib gs = ms
  | [], gs, h, _ => by
    simp only [decodeMembers, Option.some.injEq] at h
    subst h
    simp [encodedMembers]
  | (k, v) :: ms, gs, h, hk => by
    simp only [decodeMembers] at h
    cases hv : decode lib v with
    | none => simp [hv] at h
    | some g =>
      cases hms : decodeMembers lib ms with
      | none => simp [hv, hms] at h
      | some gs0 =>
        simp only [hv, hms, Option.some.injEq] at h
        subst h
        have h1 := encoded_decode lib v g hv
          (fun q hq => hk q (by simp [numbersMembers, hq]))
        have h2 := encodedMembers_decodeMembers lib ms gs0 hms
          (fun q hq => hk q (by simp [numbersMembers, hq]))
        simp [encodedMembers, h1, h2]
end

theorem pushedJobs_append (xs ys : List Event) :
    pushedJobs (xs ++ ys) = pushedJobs xs ++ pushedJobs ys := by
  induction xs with
  | nil => rfl
  | cons e es ih => cases e <;> simp [pushedJobs, ih]

theorem pushedJobs_harvest (env : RunEnv) (codePath : String) (uq : UserQuestionTable)
    (f : Frame) :
    pushedJobs (harvest env codePath uq f) = pushedJobs f.trace ++ pushedJobs f.defers := by
  unfold harvest
  repeat' split
  all_goals simp [Frame.emit, Frame.ret, Frame.defer, pushedJobs_append, pushedJobs]

theorem pushedJobs_compileAndExecute (env : RunEnv) (boxID : Int) (cmd : QuestionTestScript)
    (codePath : String) (uq : UserQuestionTable) (codeID : String) (f : Frame) :
    pushedJobs (compileAndExecute env boxID cmd codePath uq codeID f)
      = pushedJobs f.trace ++ pushedJobs f.defers := by
  unfold compileAndExecute
  simp only [Frame.emit, Frame.ret, Frame.defer, Frame.call]
  split
  · simp [pushedJobs_append, pushedJobs, runCompile_events]
  · split <;> simp [Frame.ret, pushedJobs_append, pushedJobs, pushedJobs_harvest,
      runExecute_events, runCompile_events]

theorem pushedJobs_runShellCommand (env : RunEnv) (boxID : Int) (cmd : QuestionTestScript)
    (codePath : String) (uq : UserQuestionTable) :
    pushedJobs (runShellCommand env boxID cmd codePath uq) = [] := by
  unfold runShellCommand
  repeat' split
  all_goals simp [Frame.emit, Frame.ret, Frame.defer, Frame.call, Frame.start,
    pushedJobs_append, pushedJobs, pushedJobs_compileAndExecute, getJsonfromdb]

theorem scoreOrigin_failure (env : RunEnv) (m : String) :
    ScoreOrigin env (structUpdates (scoreMessage (GoFloat.fin (-2)) m)) := by
  intro x hx
  simp [structUpdates, scoreMessage] at hx
  exact Or.inl hx.symm

theorem scoreOrigin_result (env : RunEnv) (score : String) (x : GoFloat) (m : String)
    (hscore : env.scoreFile = Except.ok score)
    (hparse : env.parseFloat (trimSpace score) = Except.ok x) :
    ScoreOrigin env (structUpdates (scoreMessage x m)) := by
  intro y hy
  simp only [structUpdates, scoreMessage] at hy
  split at hy
  · exact absurd hy (by simp)
  · simp only [Option.some.injEq] at hy
    subst hy
    exact Or.inr (Or.inr ⟨score, hscore, hparse⟩)

theorem scoreOrigin_harvest (env : RunEnv) (codePath : String) (uq : UserQuestionTable)
    (f : Frame) :
    ∀ w ∈ writesTo uq.id (harvest env codePath uq f),
      w ∈ writesTo uq.id f.trace ∨ w ∈ writesTo uq.id f.defers ∨ ScoreOrigin env w.1 := by
  intro w hw
  unfold harvest at hw
  simp only [Frame.emit, Frame.ret, Frame.defer] at hw
  repeat' split at hw
  all_goals
    simp only [writesTo_append, writesTo, if_true, List.mem_append, List.mem_cons,
      List.mem_singleton, List.not_mem_nil, or_false, false_or] at hw
    casesm* _ ∨ _
  all_goals
    first
    | exact Or.inl ‹_›
    | exact Or.inr (Or.inl ‹_›)
    | (subst_vars; exact Or.inr (Or.inr (scoreOrigin_failure env _)))
    | (subst_vars; exact Or.inr (Or.inr (scoreOrigin_result env _ _ _ ‹_› ‹_›)))

theorem scoreOrigin_compile (env : RunEnv) (m : String) :
    ScoreOrigin env (mapUpdates (GoFloat.fin 0) m) := by
  intro x hx
  simp [mapUpdates] at hx
  exact Or.inr (Or.inl hx.symm)

theorem scoreOrigin_compileAndExecute (env : RunEnv) (boxID : Int) (cmd : QuestionTestScript)
    (codePath : String) (uq : UserQuestionTable) (codeID : String) (f : Frame) :
    ∀ w ∈ writesTo uq.id (compileAndExecute env boxID cmd codePath uq codeID f),
      w ∈ writesTo uq.id f.trace ∨ w ∈ writesTo uq.id f.defers ∨ ScoreOrigin env w.1 := by
  intro w hw
  unfold compileAndExecute at hw
  simp only [Frame.emit, Frame.ret, Frame.defer, Frame.call] at hw
  split at hw
  · simp only [writesTo_append, writesTo, if_true, List.mem_append, List.mem_cons,
      List.mem_singleton, List.not_mem_nil, or_false, false_or, runCompile_events] at hw
    casesm* _ ∨ _
    all_goals
      first
      | exact Or.inl ‹_›
      | exact Or.inr (Or.inl ‹_›)
      | (subst_vars; exact Or.inr (Or.inr (scoreOrigin_compile env _)))
  · split at hw
    · simp only [writesTo_append, writesTo, if_true, List.mem_append, List.mem_cons,
        List.mem_singleton, List.not_mem_nil, or_false, false_or, runCompile_events] at hw
      casesm* _ ∨ _
      all_goals
        first
        | exact Or.inl ‹_›
        | exact Or.inr (Or.inl ‹_›)
        | (subst_vars; exact Or.inr (Or.inr (scoreOrigin_failure env _)))
    · rcases scoreOrigin_harvest env codePath uq _ w hw with h | h | h
      · simp only [writesTo_append, writesTo, List.mem_append, List.not_mem_nil, or_false,
          runCompile_events, runExecute_events] at h
        exact Or.inl h
      · simp only [writesTo, List.mem_append] at h
        exact Or.inr (Or.inl h)
      · exact Or.inr (Or.inr h)

theorem scoreOrigin_runShellCommand (env : RunEnv) (boxID : Int) (cmd : QuestionTestScript)
    (codePath : String) (uq : UserQuestionTable) :
    ∀ w ∈ writesTo uq.id (runShellCommand env boxID cmd codePath uq),
      w = (structUpdates { UserQuestionTable.zero with judgeTime := env.now }, env.dbErr 0) ∨
      w = (structUpdates (scoreMessage (GoFloat.fin (-1)) "Judging..."), env.dbErr 1) ∨
      ScoreOrigin env w.1 := by
  intro w hw
  unfold runShellCommand at hw
  simp only [Frame.emit, Frame.ret, Frame.defer, Frame.call, Frame.start] at hw
  split at hw
  · simp only [writesTo_append, writesTo, if_true, List.mem_append, List.mem_cons,
      List.mem_singleton, List.not_mem_nil, or_false, false_or, List.nil_append] at hw
    casesm* _ ∨ _
    all_goals
      first
      | exact Or.inl ‹_›
      | exact Or.inr (Or.inl ‹_›)
      | (subst_vars; exact Or.inr (Or.inr (scoreOrigin_failure env _)))
  · split at hw
    · split at hw
      · simp only [writesTo_append, writesTo, if_true, List.mem_append, List.mem_cons,
          List.mem_singleton, List.not_mem_nil, or_false, false_or, List.nil_append,
          getJsonfromdb] at hw
        casesm* _ ∨ _
        all_goals
          first
          | exact Or.inl ‹_›
          | exact Or.inr (Or.inl ‹_›)
          | (subst_vars; exact Or.inr (Or.inr (scoreOrigin_failure env _)))
      · rcases scoreOrigin_compileAndExecute env boxID cmd codePath uq _ _ w hw with h | h | h
        · simp only [writesTo_append, writesTo, if_true, List.mem_append, List.mem_cons,
            List.mem_singleton, List.not_mem_nil, or_false, false_or, List.nil_append,
            getJsonfromdb] at h
          casesm* _ ∨ _
          all_goals
            first
            | exact Or.inl ‹_›
            | exact Or.inr (Or.inl ‹_›)
        · simp [writesTo] at h
        · exact Or.inr (Or.inr h)
    · rcases scoreOrigin_compileAndExecute env boxID cmd codePath uq _ _ w hw with h | h | h
      · simp only [writesTo_append, writesTo, if_true, List.mem_append, List.mem_cons,
          List.mem_singleton, List.not_mem_nil, or_false, false_or, List.nil_append] at h
        casesm* _ ∨ _
        all_goals
          first
          | exact Or.inl ‹_›
          | exact Or.inr (Or.inl ‹_›)
      · simp [writesTo] at h
      · exact Or.inr (Or.inr h)

theorem isolateCalls_harvest (env : RunEnv) (codePath : String) (uq : UserQuestionTable)
    (f : Frame) :
    isolateCalls (harvest env codePath uq f)
      = isolateCalls f.trace ++ isolateCalls f.defers := by
  unfold harvest
  repeat' split
  all_goals simp [Frame.emit, Frame.ret, Frame.defer, isolateCalls_append, isolateCalls]

theorem dropWhile_append_of_all (p : Char → Bool) (w l : List Char)
    (hw : ∀ c ∈ w, p c = true) : (w ++ l).dropWhile p = l.dropWhile p := by
  induction w with
  | nil => rfl
  | cons c w ih =>
    have hc : p c = true := hw c (by simp)
    simp only [List.cons_append, List.dropWhile_cons, hc, if_true]
    exact ih (fun d hd => hw d (by simp [hd]))

theorem dropWhile_append_of_exists (p : Char → Bool) (l w : List Char)
    (hl : ∃ c ∈ l, p c = false) : (l ++ w).dropWhile p = l.dropWhile p ++ w := by
  induction l with
  | nil => simp at hl
  | cons c l ih =>
    cases hc : p c with
    | false => simp [List.dropWhile_cons, hc]
    | true =>
      simp only [List.cons_append, List.dropWhile_cons, hc, if_true]
      apply ih
      obtain ⟨d, hd, hpd⟩ := hl
      simp only [List.mem_cons] at hd
      rcases hd with h | h
      · subst h
        simp [hc] at hpd
      · exact ⟨d, h, hpd⟩

theorem dropWhile_nil_of_all (p : Char → Bool) (l : List Char)
    (hl : ∀ c ∈ l, p c = true) : l.dropWhile p = [] := by
  induction l with
  | nil => rfl
  | cons c l ih =>
    have hc : p c = true := hl c (by simp)
    simp only [List.dropWhile_cons, hc, if_true]
    exact ih (fun d hd => hl d (by simp [hd]))

theorem trim_append_right (p : Char → Bool) (l w : List Char) (hw : ∀ c ∈ w, p c = true) :
    (((l ++ w).dropWhile p).reverse.dropWhile p).reverse
      = ((l.dropWhile p).reverse.dropWhile p).reverse := by
  by_cases hl : ∃ c ∈ l, p c = false
  · rw [dropWhile_append_of_exists p l w hl, List.reverse_append,
      dropWhile_append_of_all p w.reverse _ (fun c hc => hw c (List.mem_reverse.mp hc))]
  · have hall : ∀ c ∈ l, p c = true := by
      intro c hc
      cases hpc : p c with
      | true => rfl
      | false => exact absurd ⟨c, hc, hpc⟩ hl
    rw [dropWhile_append_of_all p l w hall, dropWhile_nil_of_all p w hw,
      dropWhile_nil_of_all p l hall]

theorem trimSpace_padded (w1 n w2 : String) (hw1 : ∀ c ∈ w1.toList, isSpace c = true)
    (hw2 : ∀ c ∈ w2.toList, isSpace c = true) :
    trimSpace (w1 ++ n ++ w2) = trimSpace n := by
  unfold trimSpace
  congr 1
  simp only [String.toList, String.data_append] at *
  rw [List.append_assoc, dropWhile_append_of_all isSpace w1.data _ hw1]
  exact trim_append_right isSpace n.data w2.data hw2

/-- Harvest tolerates white space around the score: for white-space strings `w1` and
`w2`, a run that reads `w1 ++ n ++ w2` from `score.txt` performs the same effects as the
run that reads `n` alone; and in a run that reaches the harvest phase, parses the score
`x` and reads `message.txt`, the result is the `Updates` call with the struct of score
`x` and of the trimmed content of `message.txt`. -/
theorem harvest_trims_whitespace (env : RunEnv) (boxID : Int) (cmd : QuestionTestScript)
    (codePath : String) (uq : UserQuestionTable) (w1 n w2 : String)
    (hw1 : ∀ c ∈ w1.toList, isSpace c = true) (hw2 : ∀ c ∈ w2.toList, isSpace c = true) :
    runShellCommand { env with scoreFile := Except.ok (w1 ++ n ++ w2) } boxID cmd codePath uq
        = runShellCommand { env with scoreFile := Except.ok n } boxID cmd codePath uq ∧
      ∀ (codeID execodeID message : String) (x : GoFloat),
        env.tempFile 0 = Except.ok codeID →
        (codePath.length > 0 → env.copyErr = none) →
        (runCompile env boxID (env.shellFilename codeID) codePath).2.1 = true →
        env.tempFile 1 = Except.ok execodeID →
        env.parseFloat (trimSpace n) = Except.ok x →
        env.messageFile = Except.ok message →
        (writesTo uq.id (runShellCommand { env with scoreFile := Except.ok (w1 ++ n ++ w2) }
            boxID cmd codePath uq))[2]?
          = some (structUpdates (scoreMessage x (trimSpace message)), env.dbErr 2) := by
  have htrim := trimSpace_padded w1 n w2 hw1 hw2
  have hharvest : ∀ f : Frame,
      harvest { env with scoreFile := Except.ok (w1 ++ n ++ w2) } codePath uq f
        = harvest { env with scoreFile := Except.ok n } codePath uq f := by
    intro f
    simp only [harvest, htrim]
  constructor
  · simp only [runShellCommand, compileAndExecute, hharvest, runCompile, runExecute,
      compileArgs, executeArgs, getJsonfromdb]
  · intro codeID execodeID message x htemp hcopy hcompile hexec hparse hmessage
    obtain ⟨f, hdefers, htrace, hrun⟩ :=
      writesTo_reach_harvest { env with scoreFile := Except.ok (w1 ++ n ++ w2) } boxID cmd
        codePath uq codeID execodeID htemp hcopy
        (by simpa [runCompile, compileArgs] using hcompile) hexec
    rw [hrun]
    simp only [harvest, htrim, hparse, hmessage, Frame.emit, Frame.ret, Frame.defer]
    split <;> simp [writesTo_append, writesTo, htrace, hdefers]

theorem spawned_append (xs ys : List Event) :
    spawned (xs ++ ys) = spawned xs ++ spawned ys := by
  induction xs with
  | nil => rfl
  | cons e es ih => cases e <;> simp [spawned, ih]

theorem count_true_set (pool : List Bool) (box : Nat) (h : pool[box]? = some false) :
    (pool.set box true).count true = pool.count true + 1 := by
  induction pool generalizing box with
  | nil => simp at h
  | cons b pool ih =>
    cases box with
    | zero =>
      simp only [List.getElem?_cons_zero, Option.some.injEq] at h
      subst h
      simp
    | succ box =>
      simp only [List.getElem?_cons_succ] at h
      cases b <;> simp [List.set_cons_succ, ih box h]

theorem count_false_set (pool : List Bool) (box : Nat) (h : pool[box]? = some false) :
    (pool.set box true).count false + 1 = pool.count false := by
  induction pool generalizing box with
  | nil => simp at h
  | cons b pool ih =>
    cases box with
    | zero =>
      simp only [List.getElem?_cons_zero, Option.some.injEq] at h
      subst h
      simp
    | succ box =>
      simp only [List.getElem?_cons_succ] at h
      have := ih box h
      cases b <;> simp [List.set_cons_succ] <;> omega

theorem free_before_set (pool : List Bool) (box b : Nat) (h : pool[box]? = some false)
    (hb : (pool.set box true)[b]? = some false) : b ≠ box ∧ pool[b]? = some false := by
  by_cases hbb : b = box
  · subst hbb
    have hlt : b < pool.length := by
      rcases List.getElem?_eq_some_iff.mp h with ⟨hlt, _⟩
      exact hlt
    simp [List.getElem?_set, hlt] at hb
  · refine ⟨hbb, ?_⟩
    rw [List.getElem?_set_ne (Ne.symm hbb)] at hb
    exact hb

theorem assignJob_run (reserve : List Bool → Option Nat) (hres : ReserveExact reserve) :
    ∀ (fuel : Nat) (s : Sandbox), min s.AvailableCount s.queue.length < fuel →
      ∃ (done : Sandbox) (evs : List Event) (boxes : List Nat),
        assignJob reserve fuel s = some (done, evs) ∧
        spawned evs
          = (boxes.map Int.ofNat).zip (s.queue.take (min s.AvailableCount s.queue.length)) ∧
        boxes.length = min s.AvailableCount s.queue.length ∧
        boxes.Nodup ∧ (∀ b ∈ boxes, s.inUse[b]? = some false) ∧
        pushedJobs evs = [] ∧
        done.queue = s.queue.drop (min s.AvailableCount s.queue.length) ∧
        done.inUse.length = s.inUse.length ∧
        done.inUse.count true
          = s.inUse.count true + min s.AvailableCount s.queue.length := by
  intro fuel
  induction fuel with
  | zero => intro s h; omega
  | succ fuel ih =>
    intro s hfuel
    obtain ⟨inUse, queue⟩ := s
    by_cases hfree : inUse.count false = 0
    · refine ⟨⟨inUse, queue⟩, [], [], ?_⟩
      simp [assignJob, Sandbox.AvailableCount, hfree, spawned, pushedJobs]
    · cases queue with
      | nil =>
        refine ⟨⟨inUse, []⟩, [], [], ?_⟩
        simp [assignJob, Sandbox.AvailableCount, Sandbox.IsJobEmpty, spawned, pushedJobs]
      | cons job rest =>
        have hmem : false ∈ inUse := List.count_pos_iff.mp (Nat.pos_of_ne_zero hfree)
        obtain ⟨box, hbox, hboxfree⟩ := (hres inUse).1 hmem
        have hcount := count_false_set inUse box hboxfree
        have hmin : min (inUse.count false) (rest.length + 1)
            = min ((inUse.set box true).count false) rest.length + 1 := by
          simp only [Nat.min_def]
          split <;> split <;> omega
        obtain ⟨done, evs, boxes, hrun, hspawned, hlen, hnodup, hfreeAll, hpushed, hqueue,
            hcap, hused⟩ := ih ⟨inUse.set box true, rest⟩ (by
              simp only [Sandbox.AvailableCount, List.length_cons] at hfuel ⊢
              omega)
        simp only [Sandbox.AvailableCount] at hspawned hlen hqueue hused
        refine ⟨done, Event.spawn (box : Int) job :: evs, box :: boxes, ?_, ?_, ?_, ?_, ?_, ?_,
          ?_, ?_, ?_⟩
        · simp [assignJob, Sandbox.AvailableCount, Sandbox.IsJobEmpty, Sandbox.ReleaseJob,
            assignBody, Sandbox.reserved, hbox, hrun, Nat.pos_of_ne_zero hfree]
        · simp only [Sandbox.AvailableCount, List.length_cons, hmin, List.take_succ_cons,
            List.map_cons, List.zip_cons_cons, spawned, hspawned]
          rfl
        · simp only [Sandbox.AvailableCount, List.length_cons, hmin, hlen]
        · refine List.nodup_cons.mpr ⟨?_, hnodup⟩
          intro hin
          exact (free_before_set inUse box box hboxfree (hfreeAll box hin)).1 rfl
        · intro b hb
          simp only [List.mem_cons] at hb
          rcases hb with h | h
          · subst h
            exact hboxfree
          · exact (free_before_set inUse box b hboxfree (hfreeAll b h)).2
        · simp [pushedJobs, hpushed]
        · simp only [Sandbox.AvailableCount, List.length_cons, hmin, List.drop_succ_cons, hqueue]
        · simpa using hcap
        · simp only [Sandbox.AvailableCount, List.length_cons, hmin, hused,
            count_true_set inUse box hboxfree]
          omega

theorem lowestFree_exact : ReserveExact lowestFree := by
  intro pool
  induction pool with
  | nil => simp [lowestFree]
  | cons b pool ih =>
    cases b with
    | false => simp [lowestFree]
    | true =>
      constructor
      · intro hmem
        have hmem2 : false ∈ pool := by simpa using hmem
        obtain ⟨box, hbox, hfree⟩ := ih.1 hmem2
        exact ⟨box + 1, by simp [lowestFree, hbox], by simpa using hfree⟩
      · intro hmem
        have hmem2 : false ∉ pool := by simpa using hmem
        simp [lowestFree, ih.2 hmem2]

theorem milestones_append (sub : Nat) (xs ys : List Event) :
    milestones sub (xs ++ ys) = milestones sub xs ++ milestones sub ys := by
  induction xs with
  | nil => rfl
  | cons e es ih =>
    cases e <;> simp [milestones, ih]
    all_goals split <;> simp

theorem FallbackAfter.of_iff (env : RunEnv) (p q : Cols → Prop) (t : Cols)
    (fallback : List Milestone) (h : ∀ r, p r ↔ q r) (hp : FallbackAfter env p t fallback) :
    FallbackAfter env q t fallback := by
  rcases hp with ⟨err, hr, hdb, hfb⟩ | ⟨hnone | hnot, hfb⟩
  · exact Or.inl ⟨err, (h t).1 hr, hdb, hfb⟩
  · exact Or.inr ⟨Or.inl hnone, hfb⟩
  · exact Or.inr ⟨Or.inr (fun ⟨r, hr⟩ => hnot ⟨r, (h r).2 hr⟩), hfb⟩

theorem runCompile_success_true (env : RunEnv) (box : Int) (shellCommand codePath : String) :
    (runCompile env box shellCommand codePath).2.1 = true ↔
      env.compile.err = none ∧ ¬ ("error:".toList <:+: env.compile.out.toList) := by
  rw [runCompile_success]
  simp [stringsContains, Option.isNone_iff_eq_none]

theorem milestones_harvest (env : RunEnv) (codePath : String) (uq : UserQuestionTable)
    (f : Frame) :
    ∃ t fallback,
      FallbackAfter env (fun r => ∃ score scoreFloat message,
        env.scoreFile = Except.ok score ∧
        env.parseFloat (trimSpace score) = Except.ok scoreFloat ∧
        env.messageFile = Except.ok message ∧
        r = structUpdates (scoreMessage scoreFloat (trimSpace message))) t fallback ∧
      milestones uq.id (harvest env codePath uq f)
        = milestones uq.id f.trace ++ Milestone.write t (env.dbErr 2) :: fallback
          ++ milestones uq.id f.defers := by
  unfold harvest
  simp only [Frame.emit, Frame.ret, Frame.defer]
  cases hs : env.scoreFile with
  | error e =>
    simp only [hs, milestones_append, milestones, List.append_assoc, if_true, List.nil_append,
      List.append_cancel_left_eq, List.singleton_append, List.cons_append]
    refine ⟨_, [], Or.inr ⟨Or.inr ?_, rfl⟩, rfl⟩
    rintro ⟨r, score, x, message, h, -⟩
    simp at h
  | ok score =>
    cases hp : env.parseFloat (trimSpace score) with
    | error e =>
      simp only [hs, hp, milestones_append, milestones, List.append_assoc, if_true, List.nil_append,
        List.append_cancel_left_eq, List.singleton_append, List.cons_append]
      refine ⟨_, [], Or.inr ⟨Or.inr ?_, rfl⟩, rfl⟩
      rintro ⟨r, score2, x, message, h, h2, -⟩
      simp only [Except.ok.injEq] at h
      subst h
      rw [hp] at h2
      simp at h2
    | ok scoreFloat =>
      cases hm : env.messageFile with
      | error e =>
        simp only [hs, hp, hm, milestones_append, milestones, List.append_assoc, if_true, List.nil_append,
          List.append_cancel_left_eq, List.singleton_append, List.cons_append]
        refine ⟨_, [], Or.inr ⟨Or.inr ?_, rfl⟩, rfl⟩
        rintro ⟨r, score2, x, message, -, -, h, -⟩
        simp at h
      | ok message =>
        obtain hdb | ⟨err, hdb⟩ : env.dbErr 2 = none ∨ ∃ err, env.dbErr 2 = some err := by
          cases env.dbErr 2 <;> simp
        · simp only [hs, hp, hm, hdb, milestones_append, milestones, List.append_assoc,
            if_true, List.nil_append, List.append_cancel_left_eq, List.singleton_append,
            List.cons_append]
          exact ⟨_, [], Or.inr ⟨Or.inl hdb, rfl⟩, rfl⟩
        · simp only [hs, hp, hm, hdb, milestones_append, milestones, List.append_assoc,
            if_true, List.nil_append, List.append_cancel_left_eq, List.singleton_append,
            List.cons_append]
          exact ⟨structUpdates (scoreMessage scoreFloat (trimSpace message)), _,
            Or.inl ⟨err, ⟨score, scoreFloat, message, rfl, hp, rfl, rfl⟩, hdb, rfl⟩, rfl⟩

theorem milestones_compileAndExecute (env : RunEnv) (boxID : Int) (cmd : QuestionTestScript)
    (codePath : String) (uq : UserQuestionTable) (codeID : String) (f : Frame) :
    ∃ calls t fallback, PhaseCalls env boxID codePath calls ∧ calls ≠ [] ∧
      FallbackAfter env (fun r =>
        env.compile.err = none ∧ ¬ ("error:".toList <:+: env.compile.out.toList) ∧
        (∃ execodeID, env.tempFile 1 = Except.ok execodeID) ∧
        ∃ score scoreFloat message,
          env.scoreFile = Except.ok score ∧
          env.parseFloat (trimSpace score) = Except.ok scoreFloat ∧
          env.messageFile = Except.ok message ∧
          r = structUpdates (scoreMessage scoreFloat (trimSpace message))) t fallback ∧
      milestones uq.id (compileAndExecute env boxID cmd codePath uq codeID f)
        = milestones uq.id f.trace ++ calls.map Milestone.isolate
          ++ Milestone.write t (env.dbErr 2) :: fallback ++ milestones uq.id f.defers := by
  unfold compileAndExecute
  simp only [Frame.emit, Frame.ret, Frame.defer, Frame.call]
  by_cases hsuccess : (runCompile env boxID (env.shellFilename codeID) codePath).2.1 = true
  · have hok := (runCompile_success_true env boxID (env.shellFilename codeID) codePath).1 hsuccess
    simp only [hsuccess, Bool.not_true, Bool.false_eq_true, if_false]
    cases htemp : env.tempFile 1 with
    | error e =>
      simp only [milestones_append, milestones, runCompile_events, if_true,
        List.append_assoc, List.nil_append, List.singleton_append, List.cons_append,
        List.append_nil, List.append_cancel_left_eq]
      refine ⟨[compileArgs env boxID (env.shellFilename codeID) codePath], _, [],
        Or.inr (Or.inl ⟨codeID, rfl⟩), by simp, Or.inr ⟨Or.inr ?_, rfl⟩, rfl⟩
      rintro ⟨r, -, -, ⟨execodeID, h⟩, -⟩
      simp at h
    | ok execodeID =>
      obtain ⟨t, fallback, hfb, hm⟩ := milestones_harvest env codePath uq
        { trace := f.trace ++ (runCompile env boxID (env.shellFilename codeID) codePath).1 ++
            [Event.writeTempFile (cmd.executeScript ++ "\nrm build -rf")] ++
            (runExecute env boxID (env.shellFilename execodeID) codePath).1,
          defers := Event.remove (env.shellFilename execodeID) :: f.defers }
      refine ⟨[compileArgs env boxID (env.shellFilename codeID) codePath,
          executeArgs env boxID (env.shellFilename execodeID) codePath], t, fallback,
        Or.inr (Or.inr ⟨codeID, execodeID, hsuccess, rfl⟩), by simp, ?_, ?_⟩
      · refine FallbackAfter.of_iff env _ _ t fallback (fun r => ?_) hfb
        exact ⟨fun h => ⟨hok.1, hok.2, ⟨execodeID, rfl⟩, h⟩, fun h => h.2.2.2⟩
      · rw [hm]
        simp [milestones_append, milestones, runCompile_events, runExecute_events]
  · have hfalse : (runCompile env boxID (env.shellFilename codeID) codePath).2.1 = false := by
      simpa using hsuccess
    simp only [hfalse, Bool.not_false, if_true]
    simp only [milestones_append, milestones, runCompile_events, if_true,
      List.append_assoc, List.nil_append, List.singleton_append, List.cons_append,
      List.append_nil, List.append_cancel_left_eq]
    refine ⟨[compileArgs env boxID (env.shellFilename codeID) codePath], _, [],
      Or.inr (Or.inl ⟨codeID, rfl⟩), by simp, Or.inr ⟨Or.inr ?_, rfl⟩, rfl⟩
    rintro ⟨r, herr, hout, -⟩
    exact hsuccess
      ((runCompile_success_true env boxID (env.shellFilename codeID) codePath).2 ⟨herr, hout⟩)

theorem milestones_runShellCommand (env : RunEnv) (boxID : Int) (cmd : QuestionTestScript)
    (codePath : String) (uq : UserQuestionTable) :
    ∃ calls t fallback, PhaseCalls env boxID codePath calls ∧
      FallbackAfter env (ReachesResult env codePath) t fallback ∧
      milestones uq.id (runShellCommand env boxID cmd codePath uq)
        = [Milestone.write (structUpdates { UserQuestionTable.zero with judgeTime := env.now })
              (env.dbErr 0),
            Milestone.write (structUpdates (scoreMessage (GoFloat.fin (-1)) "Judging..."))
              (env.dbErr 1)]
          ++ calls.map Milestone.isolate ++ Milestone.write t (env.dbErr 2) :: fallback := by
  unfold runShellCommand
  simp only [Frame.emit, Frame.ret, Frame.defer, Frame.call, Frame.start]
  cases htemp : env.tempFile 0 with
  | error e =>
    simp only [milestones_append, milestones, if_true, List.append_assoc, List.nil_append,
      List.singleton_append, List.cons_append, List.append_nil, List.append_cancel_left_eq]
    refine ⟨[], _, [], Or.inl rfl, Or.inr ⟨Or.inr ?_, rfl⟩, rfl⟩
    rintro ⟨r, ⟨codeID, h⟩, -⟩
    simp [htemp] at h
  | ok codeID =>
    by_cases hlen : codePath.length > 0
    · simp only [hlen, if_true]
      cases hcopy : env.copyErr with
      | some e =>
        simp only [milestones_append, milestones, getJsonfromdb, if_true, List.append_assoc,
          List.nil_append, List.singleton_append, List.cons_append, List.append_nil,
          List.append_cancel_left_eq]
        refine ⟨[], structUpdates (scoreMessage (GoFloat.fin (-2))
          ("Failed to copy score parser: " ++ e)), [], Or.inl rfl, Or.inr ⟨Or.inr ?_, rfl⟩, rfl⟩
        rintro ⟨r, -, h, -⟩
        have := h hlen
        simp [hcopy] at this
      | none =>
        obtain ⟨calls, t, fallback, hcalls, _, hfb, hm⟩ :=
          milestones_compileAndExecute env boxID cmd codePath uq codeID
            { trace := [] ++ [Event.dbUpdate uq.id
                  (structUpdates { UserQuestionTable.zero with judgeTime := env.now })
                  (env.dbErr 0)] ++
                [Event.dbUpdate uq.id
                  (structUpdates (scoreMessage (GoFloat.fin (-1)) "Judging...")) (env.dbErr 1)] ++
                [Event.writeTempFile cmd.testScript] ++
                [Event.mkdirAll (codePath ++ "/" ++ "utils") env.mkdirErr] ++
                getJsonfromdb env (codePath ++ "/" ++ "utils") cmd ++
                [Event.exec "cp" ["./sandbox/grp_parser/grp_parser", codePath ++ "/" ++ "utils"]],
              defers := [Event.remove (env.shellFilename codeID), Event.cancel,
                Event.release boxID] }
        refine ⟨calls, t, fallback, hcalls, ?_, ?_⟩
        · refine FallbackAfter.of_iff env _ _ t fallback (fun r => ?_) hfb
          exact ⟨fun h => ⟨⟨codeID, htemp⟩, fun _ => hcopy, h⟩, fun h => h.2.2⟩
        · rw [hm]
          simp [milestones_append, milestones, getJsonfromdb]
    · simp only [hlen, if_false]
      obtain ⟨calls, t, fallback, hcalls, _, hfb, hm⟩ :=
        milestones_compileAndExecute env boxID cmd codePath uq codeID
          { trace := [] ++ [Event.dbUpdate uq.id
                (structUpdates { UserQuestionTable.zero with judgeTime := env.now })
                (env.dbErr 0)] ++
              [Event.dbUpdate uq.id
                (structUpdates (scoreMessage (GoFloat.fin (-1)) "Judging...")) (env.dbErr 1)] ++
              [Event.writeTempFile cmd.testScript],
            defers := [Event.remove (env.shellFilename codeID), Event.cancel,
              Event.release boxID] }
      refine ⟨calls, t, fallback, hcalls, ?_, ?_⟩
      · refine FallbackAfter.of_iff env _ _ t fallback (fun r => ?_) hfb
        exact ⟨fun h => ⟨⟨codeID, htemp⟩, fun h0 => absurd h0 hlen, h⟩, fun h => h.2.2⟩
      · rw [hm]
        simp [milestones_append, milestones]

theorem firstUser_some (env : ResetEnv) (k : Nat) (cond : User → Bool) (u : User)
    (h : firstUser env k cond = some u) : u ∈ env.users ∧ cond u = true := by
  unfold firstUser at h
  split at h
  · exact absurd h (by simp)
  · exact ⟨List.mem_of_find?_eq_some h, List.find?_some h⟩

/-! ## Claims -/

/-- C1: on every exit path of `runShellCommandByRepo boxID job` (script lookup miss,
temp-file failure, parser copy failure, compile failure, harvest failure, database
failure, success) `Release` is called exactly once, with `boxID` and with no other slot
id: the list of released slots of the run is `[boxID]`. -/
theorem release_exactly_once (env : RunEnv) (boxID : Int) (work : Job) :
    releases (runShellCommandByRepo env boxID work) = [boxID] := by
  unfold runShellCommandByRepo
  split
  · simp [releases]
  · exact releases_runShellCommand env boxID _ _ _


/-- C2, as stated, fails: after the first run of the job missed the script lookup the
row holds the terminal score `-2`; the job is back on the queue, and the second run
overwrites that `-2` (with `-1`, then with `85.5`). -/
theorem terminal_overwritten_after_lookup_miss :
    (waitingRow.after (writesTo 11 (runJob [(lookupMissEnv, 0)] sampleJob))).score
        = GoFloat.fin (-2) ∧
      (waitingRow.after
          (writesTo 11 (runJob [(lookupMissEnv, 0), (successEnv, 1)] sampleJob))).score
        = GoFloat.fin (171 / 2) ∧
      ¬ TerminalKept waitingRow
          (writesTo 11 (runJob [(lookupMissEnv, 0), (successEnv, 1)] sampleJob)) := by
  refine ⟨by decide!, by decide!, by decide!⟩

/-- C2, amended: a run that finds the scripts writes `judge_time`, then
`(-1, "Judging...")`, then one result, followed by the fallback write of `-2` only when
the database rejected the result; so on a Submission that is queued (score `-3`), once
a terminal value has been written no later write of that run changes score or
message. -/
theorem terminal_kept_within_run (env : RunEnv) (boxID : Int) (work : Job)
    (cmd : QuestionTestScript) (r : Row) (hlookup : env.lookup = Except.ok cmd)
    (hr : r.score = GoFloat.fin (-3)) :
    TerminalKept r (writesTo work.uqr.id (runShellCommandByRepo env boxID work)) ∧
      ∃ ws, TerminalShape env ws ∧
        writesTo work.uqr.id (runShellCommandByRepo env boxID work)
          = (structUpdates { UserQuestionTable.zero with judgeTime := env.now }, env.dbErr 0) ::
            (structUpdates (scoreMessage (GoFloat.fin (-1)) "Judging..."), env.dbErr 1) :: ws := by
  have hrun : runShellCommandByRepo env boxID work
      = runShellCommand env boxID cmd work.codePath work.uqr := by
    simp [runShellCommandByRepo, hlookup]
  obtain ⟨ws, hshape, hws⟩ := writesTo_runShellCommand env boxID cmd work.codePath work.uqr
  rw [hrun]
  refine ⟨?_, ws, hshape, hws⟩
  rw [hws]
  obtain ⟨t, hone | ⟨err, herr, htwo⟩⟩ := hshape
  · subst hone
    cases h0 : env.dbErr 0 <;> cases h1 : env.dbErr 1 <;>
      simp [TerminalKept, Row.after, Row.write, structUpdates, scoreMessage,
        UserQuestionTable.zero, isTerminal, hr]
  · subst htwo
    cases h0 : env.dbErr 0 <;> cases h1 : env.dbErr 1 <;>
      simp [TerminalKept, Row.after, Row.write, structUpdates, scoreMessage,
        UserQuestionTable.zero, isTerminal, hr]

/-- A run of C2 as amended: the successful run of a queued Submission. -/
theorem terminal_kept_within_run_witness :
    successEnv.lookup = Except.ok sampleScripts ∧ waitingRow.score = GoFloat.fin (-3) ∧
      TerminalKept waitingRow (writesTo sampleJob.uqr.id (runShellCommandByRepo successEnv 0 sampleJob)) :=
  ⟨rfl, rfl, (terminal_kept_within_run successEnv 0 sampleJob sampleScripts waitingRow rfl rfl).1⟩

/-- C3 fails on the code: `os.RemoveAll(codePath)` is deferred on the last line of
`runShellCommand`, after every early return. A run whose compile step fails, and a run
whose execute step leaves no `score.txt`, return without any call of `os.RemoveAll`;
only the successful run removes the code directory. -/
theorem code_directory_left_on_failure :
    removedDirs (runShellCommand compileExitEnv 0 sampleScripts sampleCodePath sampleSubmission)
        = [] ∧
      removedDirs (runShellCommand noScoreEnv 0 sampleScripts sampleCodePath sampleSubmission)
        = [] ∧
      removedDirs (runShellCommand successEnv 0 sampleScripts sampleCodePath sampleSubmission)
        = [sampleCodePath] := by
  refine ⟨by decide!, by decide!, by decide!⟩

/-- C4: `runCompile` reports success exactly when the isolation command returned no
error (exit code zero) and `error:` does not occur in its combined output; an exit-0 run
whose output is `error: ` is reported as failure. -/
theorem runCompile_success_iff (env : RunEnv) (box : Int) (shellCommand codePath : String) :
    ((runCompile env box shellCommand codePath).2.1 = true ↔
        env.compile.err = none ∧ ¬ ("error:".toList <:+: env.compile.out.toList)) ∧
      (runCompile { env with compile := { err := none, out := "error: " } }
        box shellCommand codePath).2.1 = false := by
  constructor
  · unfold runCompile stringsContains
    cases h : env.compile.err with
    | some err => simp
    | none =>
      simp only [decide_eq_true_eq]
      split <;> simp_all
  · have hin : stringsContains "error: " "error:" = true := by decide
    simp only [runCompile, hin, if_true]

/-- C5, as stated, fails: when the compile command exits with a non-zero code the
message is `Compilation Failed:` followed by the text of the exit error, a line break
and then the combined output, not by the combined output alone. -/
theorem compile_failure_message_has_exit_error :
    (runCompile compileExitEnv 0 "/tmp/code0.sh" sampleCodePath).2.1 = false ∧
      writesTo 11 (runShellCommand compileExitEnv 0 sampleScripts sampleCodePath sampleSubmission)
        = [({ score := none, message := none, judgeTime := some 2000 }, none),
           ({ score := some (GoFloat.fin (-1)), message := some "Judging...",
              judgeTime := none }, none),
           ({ score := some (GoFloat.fin 0),
              message := some "Compilation Failed:\nexit status 1\nmain.c:1:10: fatal\n",
              judgeTime := none }, none)] ∧
      "Compilation Failed:\nexit status 1\nmain.c:1:10: fatal\n"
        ≠ "Compilation Failed:\n" ++ compileExitEnv.compile.out := by
  refine ⟨by decide!, by decide!, by decide!⟩

/-- C5, amended: whenever the compile phase fails (non-zero exit, or `error:` in the
output), `runShellCommand` writes score `0` and the message `Compilation Failed:`, a line
break, then the combined output of the compile command, preceded by the text of the exit
error and a line break when the command exited with an error; it then returns without
the execute and harvest phases: the compile call is the only call of the isolation tool
and no file is read. -/
theorem compile_failure_write (env : RunEnv) (boxID : Int) (cmd : QuestionTestScript)
    (codePath : String) (uq : UserQuestionTable) (codeID : String)
    (htemp : env.tempFile 0 = Except.ok codeID)
    (hcopy : codePath.length > 0 → env.copyErr = none)
    (hfail : env.compile.err ≠ none ∨ "error:".toList <:+: env.compile.out.toList) :
    writesTo uq.id (runShellCommand env boxID cmd codePath uq)
        = [(structUpdates { UserQuestionTable.zero with judgeTime := env.now }, env.dbErr 0),
           (structUpdates (scoreMessage (GoFloat.fin (-1)) "Judging..."), env.dbErr 1),
           ({ score := some (GoFloat.fin 0),
              message := some ("Compilation Failed:\n" ++
                (match env.compile.err with
                 | some err => err ++ "\n" ++ env.compile.out
                 | none => env.compile.out)),
              judgeTime := none }, env.dbErr 2)] ∧
      isolateCalls (runShellCommand env boxID cmd codePath uq)
        = [compileArgs env boxID (env.shellFilename codeID) codePath] ∧
      fileReads (runShellCommand env boxID cmd codePath uq) = [] := by
  have hsuccess : (runCompile env boxID (env.shellFilename codeID) codePath).2.1 = false := by
    rw [runCompile_success]
    rcases hfail with h | h
    · cases herr : env.compile.err with
      | none => exact absurd herr h
      | some err => simp
    · have hc : stringsContains env.compile.out "error:" = true := by
        simpa [stringsContains] using h
      simp [hc]
  unfold runShellCommand
  simp only [Frame.emit, Frame.ret, Frame.defer, Frame.call, Frame.start, htemp]
  by_cases hlen : codePath.length > 0
  · simp [hlen, hcopy hlen, compileAndExecute, hsuccess, Frame.emit, Frame.ret, Frame.call,
      writesTo_append, writesTo, isolateCalls_append, isolateCalls, fileReads_append, fileReads,
      getJsonfromdb, runCompile_events, runCompile_output, mapUpdates]
  · simp [hlen, compileAndExecute, hsuccess, Frame.emit, Frame.ret, Frame.call,
      writesTo_append, writesTo, isolateCalls_append, isolateCalls, fileReads_append, fileReads,
      runCompile_events, runCompile_output, mapUpdates]

/-- A run of C5 as amended: the compile command exits with status 1. -/
theorem compile_failure_write_witness :
    compileExitEnv.tempFile 0 = Except.ok "code0" ∧
      isolateCalls (runShellCommand compileExitEnv 0 sampleScripts sampleCodePath sampleSubmission)
        = [compileArgs compileExitEnv 0 (compileExitEnv.shellFilename "code0") sampleCodePath] :=
  ⟨by decide, (compile_failure_write compileExitEnv 0 sampleScripts sampleCodePath
    sampleSubmission "code0" (by decide) (fun _ => rfl) (Or.inl (by decide))).2.1⟩

/-- C6 fails on the code at score `0` and at a blank message: the result is written
with a struct value, whose zero fields GORM leaves out. With `score.txt` holding `0` the
row keeps the score `-1` of a running job; with a blank `message.txt` it keeps the
message `Judging...`. The run of the claim (`85.5`, `OK`) is persisted as `(85.5, "OK")`,
and the compile-failure path, which writes its `0` with a map, does persist it. -/
theorem zero_score_and_blank_message_not_persisted :
    waitingRow.after (writesTo 11 (runShellCommandByRepo (harvestEnv "0\n" "OK\n") 0 sampleJob))
        = { score := GoFloat.fin (-1), message := "OK", judgeTime := 2000 } ∧
      waitingRow.after (writesTo 11 (runShellCommandByRepo (harvestEnv "85.5\n" " \n") 0 sampleJob))
        = { score := GoFloat.fin (171 / 2), message := "Judging...", judgeTime := 2000 } ∧
      waitingRow.after (writesTo 11 (runShellCommandByRepo successEnv 0 sampleJob))
        = { score := GoFloat.fin (171 / 2), message := "OK", judgeTime := 2000 } ∧
      (waitingRow.after (writesTo 11 (runShellCommandByRepo compileExitEnv 0 sampleJob))).score
        = GoFloat.fin 0 := by
  refine ⟨by decide!, by decide!, by decide!, by decide!⟩

/-- C8, as stated, fails on an integer too large for a float64: the blob
`9007199254740993` is valid JSON, `json.Unmarshal` stores it as the float64
`9007199254740992`, and the file written denotes that other number. -/
theorem big_integer_not_round_tripped :
    successEnv.json.parse "9007199254740993" = some (Json.num 9007199254740993) ∧
      (writtenFiles (getJsonfromdb successEnv "/repos/alice/q7/0b5e/utils"
          { sampleScripts with scoreScript := "9007199254740993" })).map
          (fun w => w.2.denotes successEnv.json)
        = [some (Json.num 9007199254740992)] ∧
      Json.num 9007199254740992 ≠ Json.num 9007199254740993 := by
  have hparse : parseInteger "9007199254740993" = some 9007199254740993 := by decide
  have hfloat : nearestFloat64 9007199254740993 = some 9007199254740992 := by decide!
  have htext : shortestDecimal 9007199254740992 = 9007199254740992 := by decide!
  have hjson : successEnv.json.parse "9007199254740993" = some (Json.num 9007199254740993) := by
    simp [successEnv, harvestEnv, goJson, parseIntegerJson, hparse]
  refine ⟨hjson, ?_, by norm_num⟩
  simp [getJsonfromdb, jsonUnmarshal, hjson, decode, writtenFiles, FileContent.denotes, encoded]
  simp [successEnv, harvestEnv, goJson, hfloat, encoded, htext]

/-- C8, amended: for every score blob that is valid JSON, the content written to
`score.json` under the given directory denotes the same logical structure (objects,
arrays, strings, booleans, nulls) with the same numeric values, provided every number of
the blob survives the conversion to float64 and back to digits; a number that does not,
such as an integer too large for a float64, is written as another number. -/
theorem score_json_round_trip (env : RunEnv) (path : String) (row : QuestionTestScript)
    (v : Json) (hvalid : env.json.parse row.scoreScript = some v)
    (hkept : ∀ q ∈ v.numbers, NumberKept env.json q) :
    (writtenFiles (getJsonfromdb env path row)).map (fun w => w.1)
        = [env.filepathJoin path "score.json"] ∧
      (writtenFiles (getJsonfromdb env path row)).map (fun w => w.2.denotes env.json)
        = [some v] := by
  unfold getJsonfromdb jsonUnmarshal
  rw [hvalid]
  cases hdecode : decode env.json v with
  | none => simp [writtenFiles, FileContent.denotes, hvalid, hdecode]
  | some g =>
    simp [writtenFiles, FileContent.denotes, hdecode,
      encoded_decode env.json v g hdecode hkept]

/-- A blob of C8 as amended: the score JSON `100`. -/
theorem score_json_round_trip_witness :
    successEnv.json.parse sampleScripts.scoreScript = some (Json.num 100) ∧
      (writtenFiles (getJsonfromdb successEnv "/repos/alice/q7/0b5e/utils" sampleScripts)).map
          (fun w => w.2.denotes successEnv.json)
        = [some (Json.num 100)] := by
  have hparse : parseInteger "100" = some 100 := by decide
  have hfloat : nearestFloat64 100 = some 100 := by decide!
  have htext : shortestDecimal 100 = 100 := by decide!
  have hjson : successEnv.json.parse sampleScripts.scoreScript = some (Json.num 100) := by
    simp [successEnv, harvestEnv, goJson, parseIntegerJson, sampleScripts, hparse]
  refine ⟨hjson, (score_json_round_trip successEnv "/repos/alice/q7/0b5e/utils" sampleScripts
    (Json.num 100) hjson ?_).2⟩
  intro q hq x hx
  simp only [Json.numbers, List.mem_singleton] at hq
  subst hq
  simp only [successEnv, harvestEnv, goJson, hfloat, Option.some.injEq] at hx
  subst hx
  simpa [successEnv, harvestEnv, goJson] using htext

/-- C9: when the clone fails in `ReScoreUserQuestion`, no Job is pushed on the queue;
and on every request that gets as far as the clone (the question id is given, the active
question and the Submission-Link of the caller are found, the insert succeeds) the handler
performs exactly these effects: the insert of the waiting Submission, the response 200,
the clone, and one `Updates` call on the row just created (the key `db.Create` gave it)
with score `-2` and the message `Failed to clone repository`; no `ReserveJob`. -/
theorem clone_failure_not_enqueued (env : RescoreEnv) (err : String)
    (hclone : env.cloneErr = some err) :
    pushedJobs (ReScoreUserQuestion env) = [] ∧
      ∀ question uqr, env.questionID ≠ "" →
        env.findQuestion env.questionID = some question →
        env.findLink env.questionID env.userID = some uqr →
        env.createErr = none →
        ReScoreUserQuestion env
          = [Event.dbCreate
                { id := 0, uqr := uqr, score := GoFloat.fin (-3), judgeTime := env.now,
                  message := "Waiting for judging..." } none,
             Event.respond 200 "Re-scoring the question",
             Event.clone (clonePath env.repoFolder uqr.gitUserRepoURL env.uuid)
               ("http://" ++ env.gitHost ++ "/" ++ uqr.gitUserRepoURL),
             Event.dbUpdate env.newID
               { score := some (GoFloat.fin (-2)),
                 message := some "Failed to clone repository",
                 judgeTime := none } env.updateErr] ∧
        writesTo env.newID (ReScoreUserQuestion env)
          = [({ score := some (GoFloat.fin (-2)),
                message := some "Failed to clone repository",
                judgeTime := none }, env.updateErr)] := by
  constructor
  · unfold ReScoreUserQuestion rescoreClone
    simp only [hclone]
    repeat' split
    all_goals simp [pushedJobs]
  · intro question uqr hid hquestion hlink hcreate
    have hrun : ReScoreUserQuestion env
        = [Event.dbCreate
              { id := 0, uqr := uqr, score := GoFloat.fin (-3), judgeTime := env.now,
                message := "Waiting for judging..." } none,
           Event.respond 200 "Re-scoring the question",
           Event.clone (clonePath env.repoFolder uqr.gitUserRepoURL env.uuid)
             ("http://" ++ env.gitHost ++ "/" ++ uqr.gitUserRepoURL),
           Event.dbUpdate env.newID
             { score := some (GoFloat.fin (-2)),
               message := some "Failed to clone repository",
               judgeTime := none } env.updateErr] := by
      simp [ReScoreUserQuestion, rescoreClone, hid, hquestion, hlink, hcreate, hclone,
        structUpdates, scoreMessage, UserQuestionTable.zero]
    refine ⟨hrun, ?_⟩
    rw [hrun]
    simp [writesTo]

/-- A request of C9: user 5 asks for a rescore of question 7 and the Git host cannot be
reached. -/
theorem clone_failure_not_enqueued_witness :
    (rescoreEnv (some "connection refused")).cloneErr = some "connection refused" ∧
      (rescoreEnv (some "connection refused")).questionID ≠ "" ∧
      (rescoreEnv (some "connection refused")).findQuestion "7" = some sampleQuestion ∧
      (rescoreEnv (some "connection refused")).findLink "7" 5 = some sampleLink ∧
      (rescoreEnv (some "connection refused")).createErr = none ∧
      pushedJobs (ReScoreUserQuestion (rescoreEnv (some "connection refused"))) = [] ∧
      ReScoreUserQuestion (rescoreEnv (some "connection refused"))
        = [Event.dbCreate
              { id := 0, uqr := sampleLink, score := GoFloat.fin (-3), judgeTime := 1000,
                message := "Waiting for judging..." } none,
           Event.respond 200 "Re-scoring the question",
           Event.clone "/repos/alice/q7/0b5e" "http://git.example.org/alice/q7",
           Event.dbUpdate 11
             { score := some (GoFloat.fin (-2)),
               message := some "Failed to clone repository",
               judgeTime := none } none] ∧
      writesTo 11 (ReScoreUserQuestion (rescoreEnv (some "connection refused")))
        = [({ score := some (GoFloat.fin (-2)),
              message := some "Failed to clone repository",
              judgeTime := none }, none)] :=
  ⟨rfl, by decide, rfl, rfl, rfl,
    (clone_failure_not_enqueued (rescoreEnv (some "connection refused"))
      "connection refused" rfl).1,
    (clone_failure_not_enqueued (rescoreEnv (some "connection refused"))
      "connection refused" rfl).2 sampleQuestion sampleLink (by decide) rfl rfl rfl⟩

/-- C10: `ReScoreUserQuestion` responds 200 exactly when the active question is found,
the Submission-Link of the caller for it is found and the insert succeeds; it has then
created exactly one Submission, for that link, with score `-3` and the message
`Waiting for judging...`; the response is the same whatever the clone answers; and after
a response 400, 404 or 503 no Job has been pushed. No question has the empty id. -/
theorem rescore_response (env : RescoreEnv) (hdb : env.findQuestion "" = none) :
    (responses (ReScoreUserQuestion env) = [200] ↔
        (env.findQuestion env.questionID).isSome ∧
        (env.findLink env.questionID env.userID).isSome ∧ env.createErr = none) ∧
      (responses (ReScoreUserQuestion env) = [200] →
        ∃ uqr, env.findLink env.questionID env.userID = some uqr ∧
          createdRows (ReScoreUserQuestion env)
            = [{ id := 0, uqr := uqr, score := GoFloat.fin (-3), judgeTime := env.now,
                 message := "Waiting for judging..." }]) ∧
      (∀ cloneErr, responses (ReScoreUserQuestion { env with cloneErr := cloneErr })
        = responses (ReScoreUserQuestion env)) ∧
      (responses (ReScoreUserQuestion env) = [400] ∨
        responses (ReScoreUserQuestion env) = [404] ∨
        responses (ReScoreUserQuestion env) = [503] →
        pushedJobs (ReScoreUserQuestion env) = []) := by
  unfold ReScoreUserQuestion rescoreClone
  by_cases hid : env.questionID = ""
  · simp [hid, hdb, responses, pushedJobs]
  · cases hq : env.findQuestion env.questionID with
    | none => simp [hid, hq, responses, pushedJobs]
    | some question =>
      cases hl : env.findLink env.questionID env.userID with
      | none => simp [hid, hq, hl, responses, pushedJobs]
      | some uqr =>
        cases hc : env.createErr with
        | some err => simp [hid, hq, hl, hc, responses, pushedJobs]
        | none =>
          refine ⟨?_, ?_, ?_, ?_⟩
          · cases env.cloneErr <;> simp [hid, hq, hl, hc, responses]
          · cases env.cloneErr <;>
              simp [hid, hq, hl, hc, responses, createdRows, UserQuestionTable.zero]
          · intro cloneErr
            cases cloneErr <;> cases env.cloneErr <;> simp [hid, hq, hl, hc, responses]
          · cases env.cloneErr <;> simp [hid, hq, hl, hc, responses]

/-- A request of C10: user 5 asks for a rescore of question 7. -/
theorem rescore_response_witness :
    (rescoreEnv none).findQuestion "" = none ∧
      (responses (ReScoreUserQuestion (rescoreEnv none)) = [200] ↔
        ((rescoreEnv none).findQuestion (rescoreEnv none).questionID).isSome ∧
        ((rescoreEnv none).findLink (rescoreEnv none).questionID (rescoreEnv none).userID).isSome ∧
        (rescoreEnv none).createErr = none) :=
  ⟨by decide, (rescore_response (rescoreEnv none) (by decide)).1⟩

/-- C11 fails on the code: `ReScoreQuestion` looks the links up with
`Where("question_id = ? AND user_id = ?", questionID, jwtClaims.UserID).First(&uqr)`, the
single-row query of `ReScoreUserQuestion`, and loops over its result. With the links of
users 5 and 6 bound to question 7, an admin without a link of their own gets 503 and no
Submission is created; an admin who is user 5 gets one Submission and one clone, for
their own link only. A caller who is not an admin gets 401 and no Submission. -/
theorem bulk_rescore_takes_one_link_of_caller :
    linksOf (bulkEnv true 1).links sampleQuestion = [sampleLink, otherLink] ∧
      responses (ReScoreQuestion (bulkEnv true 1)) = [503] ∧
      createdRows (ReScoreQuestion (bulkEnv true 1)) = [] ∧
      clonedPaths (ReScoreQuestion (bulkEnv true 1)) = [] ∧
      responses (ReScoreQuestion (bulkEnv true 5)) = [200] ∧
      createdRows (ReScoreQuestion (bulkEnv true 5)) = [waitingScore sampleLink 1000] ∧
      clonedPaths (ReScoreQuestion (bulkEnv true 5)) = ["/repos/alice/q7/uuid0"] ∧
      responses (ReScoreQuestion (bulkEnv false 5)) = [401] ∧
      createdRows (ReScoreQuestion (bulkEnv false 5)) = [] := by
  refine ⟨by decide, by decide!, by decide!, by decide!, by decide!, by decide!, by decide!,
    by decide!, by decide!⟩

/-- C13: for every box id, script path and code path, the argument vector of
`runExecute` contains `--fsize=5120`, `--processes=100`, `--open-files=0`, `--time=1`,
`--wall-time=2` and `--mem=131072`; the vector of `runCompile` is a list of options
followed by `--run -- /usr/bin/sh <script>`, and its options contain `--fsize=5120`, the
bare `--processes` and `--open-files=0`, and none that starts with `--time`,
`--wall-time` or `--mem`. -/
theorem resource_limit_flags (env : RunEnv) (box : Int) (shellCommand codePath : String) :
    ("--fsize=5120" ∈ executeArgs env box shellCommand codePath ∧
      "--processes=100" ∈ executeArgs env box shellCommand codePath ∧
      "--open-files=0" ∈ executeArgs env box shellCommand codePath ∧
      "--time=1" ∈ executeArgs env box shellCommand codePath ∧
      "--wall-time=2" ∈ executeArgs env box shellCommand codePath ∧
      "--mem=131072" ∈ executeArgs env box shellCommand codePath) ∧
    ∃ options : List String,
      compileArgs env box shellCommand codePath
        = options ++ ["--run", "--", "/usr/bin/sh", shellCommand] ∧
      "--fsize=5120" ∈ options ∧ "--processes" ∈ options ∧ "--open-files=0" ∈ options ∧
      ∀ a ∈ options, ¬ ("--time".toList <+: a.toList) ∧
        ¬ ("--wall-time".toList <+: a.toList) ∧ ¬ ("--mem".toList <+: a.toList) := by
  constructor
  · unfold executeArgs
    split <;> simp
  · unfold compileArgs
    split
    · refine ⟨_, rfl, by simp, by simp, by simp, ?_⟩
      intro a ha
      simp only [List.mem_append, List.mem_cons, List.mem_singleton, List.not_mem_nil,
        or_false] at ha
      rcases ha with (h | h | h | h | h | h | h | h) | h | h | h <;> subst h <;>
        simp [String.data_append]
    · refine ⟨_, rfl, by simp, by simp, by simp, ?_⟩
      intro a ha
      simp only [List.mem_cons, List.mem_singleton, List.not_mem_nil, or_false] at ha
      rcases ha with h | h | h | h | h | h | h | h <;> subst h <;>
        simp [String.data_append]

/-- C15: when the TestScripts lookup misses, `runShellCommandByRepo` writes the failure,
releases the slot and pushes exactly one job, with the repo and the code path of the job
it ran and with its Submission: the same key, link and judge time. Score and message of
the handle pushed are those of the copy in memory, which holds the failure just written
as soon as GORM has built the statement. The run does nothing else: no call of the
isolation tool, no file read. When the lookup succeeds, no path of the run pushes a
job. -/
theorem lookup_miss_requeues_once (env : RunEnv) (boxID : Int) (work : Job) :
    (∀ err, env.lookup = Except.error err →
        runShellCommandByRepo env boxID work
          = [Event.dbUpdate work.uqr.id
                { score := some (GoFloat.fin (-2)),
                  message := some ("Failed to find shell command for " ++ work.repo ++ ": " ++ err),
                  judgeTime := none }
                (env.dbErr 0),
             Event.release boxID,
             Event.reserveJob work.repo work.codePath
               (if env.dbErr 0 = none ∨ env.dbBuilt 0 = true then
                  { work.uqr with
                    score := GoFloat.fin (-2)
                    message := "Failed to find shell command for " ++ work.repo ++ ": " ++ err }
                else work.uqr)] ∧
        (∃ job, pushedJobs (runShellCommandByRepo env boxID work) = [job] ∧
          job.repo = work.repo ∧ job.codePath = work.codePath ∧
          job.uqr.id = work.uqr.id ∧ job.uqr.uqr = work.uqr.uqr ∧
          job.uqr.judgeTime = work.uqr.judgeTime) ∧
        releases (runShellCommandByRepo env boxID work) = [boxID] ∧
        isolateCalls (runShellCommandByRepo env boxID work) = [] ∧
        fileReads (runShellCommandByRepo env boxID work) = []) ∧
      (∀ cmd, env.lookup = Except.ok cmd →
        pushedJobs (runShellCommandByRepo env boxID work) = []) := by
  constructor
  · intro err herr
    have hne : "Failed to find shell command for " ++ work.repo ++ ": " ++ err ≠ "" := by
      exact append_ne_empty _ _ (append_ne_empty _ _ (append_ne_empty _ _ (by decide)))
    have hcols : structUpdates (scoreMessage (GoFloat.fin (-2))
        ("Failed to find shell command for " ++ work.repo ++ ": " ++ err))
        = { score := some (GoFloat.fin (-2)),
            message := some ("Failed to find shell command for " ++ work.repo ++ ": " ++ err),
            judgeTime := none } := by
      simp [structUpdates, scoreMessage, UserQuestionTable.zero, hne]
    refine ⟨?_, ?_, ?_, ?_, ?_⟩
    · simp only [runShellCommandByRepo, herr, hcols, updatedModel,
        UserQuestionTable.assigned, Option.getD_some, Option.getD_none]
    · refine ⟨Job.mk work.repo work.codePath
          (updatedModel env 0 work.uqr (structUpdates (scoreMessage (GoFloat.fin (-2))
            ("Failed to find shell command for " ++ work.repo ++ ": " ++ err)))),
        by simp only [runShellCommandByRepo, herr, pushedJobs], rfl, rfl, ?_, ?_, ?_⟩
      all_goals
        simp only [updatedModel, UserQuestionTable.assigned, hcols, Option.getD_none]
        split <;> rfl
    · simp [runShellCommandByRepo, herr, releases]
    · simp [runShellCommandByRepo, herr, isolateCalls]
    · simp [runShellCommandByRepo, herr, fileReads]
  · intro cmd hcmd
    simp [runShellCommandByRepo, hcmd, pushedJobs_runShellCommand]

/-- A run of C15: the lookup finds no record; the job pushed is that of Submission 11,
its copy in memory holding the failure. -/
theorem lookup_miss_requeues_once_witness :
    lookupMissEnv.lookup = Except.error "record not found" ∧
      runShellCommandByRepo lookupMissEnv 0 sampleJob
        = [Event.dbUpdate 11
              { score := some (GoFloat.fin (-2)),
                message := some "Failed to find shell command for teacher/q7: record not found",
                judgeTime := none }
              none,
           Event.release 0,
           Event.reserveJob "teacher/q7" sampleCodePath
             { sampleSubmission with
               score := GoFloat.fin (-2)
               message := "Failed to find shell command for teacher/q7: record not found" }] :=
  ⟨rfl, ((lookup_miss_requeues_once lookupMissEnv 0 sampleJob).1 "record not found" rfl).1⟩

/-- C19: for every score blob that is not valid JSON, `getJsonfromdb` hands exactly the
bytes of the blob to the one `WriteFile` call it makes, on `score.json` under the given
directory. -/
theorem invalid_json_written_verbatim (env : RunEnv) (path : String)
    (row : QuestionTestScript) (hinvalid : env.json.parse row.scoreScript = none) :
    getJsonfromdb env path row
      = [Event.writeFile (env.filepathJoin path "score.json")
          (FileContent.raw row.scoreScript) env.writeFileErr] := by
  simp [getJsonfromdb, jsonUnmarshal, hinvalid]

/-- A blob of C19: `not json` is not an integer literal. -/
theorem invalid_json_written_verbatim_witness :
    successEnv.json.parse "not json" = none ∧
      getJsonfromdb successEnv "/repos/alice/q7/0b5e/utils"
          { sampleScripts with scoreScript := "not json" }
        = [Event.writeFile (successEnv.filepathJoin "/repos/alice/q7/0b5e/utils" "score.json")
            (FileContent.raw "not json") successEnv.writeFileErr] := by
  have hparse : parseInteger "not json" = none := by decide
  have hjson : successEnv.json.parse "not json" = none := by
    simp [successEnv, harvestEnv, goJson, parseIntegerJson, hparse]
  exact ⟨hjson, invalid_json_written_verbatim successEnv "/repos/alice/q7/0b5e/utils"
    { sampleScripts with scoreScript := "not json" } hjson⟩

/-- C14, as stated, fails: the value parsed from `score.txt` is written as it is. With
`score.txt` holding `-1` the finished row reads `-1` (running), with `-3` it reads `-3`
(queued), and `inf` and `NaN` are persisted as infinite and not-a-number; none of these
is `-2` or a finite non-negative number. -/
theorem unchecked_scores_persisted :
    (waitingRow.after (writesTo 11 (runShellCommandByRepo (harvestEnv "-1\n" "OK\n") 0 sampleJob))).score
        = GoFloat.fin (-1) ∧
      (waitingRow.after (writesTo 11 (runShellCommandByRepo (harvestEnv "-3\n" "OK\n") 0 sampleJob))).score
        = GoFloat.fin (-3) ∧
      (waitingRow.after (writesTo 11 (runShellCommandByRepo (harvestEnv "inf\n" "OK\n") 0 sampleJob))).score
        = GoFloat.posInf ∧
      (waitingRow.after (writesTo 11 (runShellCommandByRepo (harvestEnv "NaN\n" "OK\n") 0 sampleJob))).score
        = GoFloat.nan ∧
      ¬ isTerminal (GoFloat.fin (-1)) ∧ ¬ isTerminal (GoFloat.fin (-3)) ∧
      ¬ isTerminal GoFloat.posInf ∧ ¬ isTerminal GoFloat.nan := by
  refine ⟨by decide!, by decide!, by decide!, by decide!, by decide!, by decide!,
    by decide!, by decide!⟩

/-- C14, amended: every write of a run of `runShellCommand` is the `judge_time` write, the
mark-running write, or a write whose score, if it sets one, is `-2`, the `0` of a failed
compile, or the value that `strconv.ParseFloat` returned for the trimmed content of
`score.txt`, whatever that value is. -/
theorem written_scores (env : RunEnv) (boxID : Int) (cmd : QuestionTestScript)
    (codePath : String) (uq : UserQuestionTable) :
    ∀ w ∈ writesTo uq.id (runShellCommand env boxID cmd codePath uq),
      w = (structUpdates { UserQuestionTable.zero with judgeTime := env.now }, env.dbErr 0) ∨
      w = (structUpdates (scoreMessage (GoFloat.fin (-1)) "Judging..."), env.dbErr 1) ∨
      ∀ x, w.1.score = some x →
        x = GoFloat.fin (-2) ∨ x = GoFloat.fin 0 ∨
          ∃ score, env.scoreFile = Except.ok score ∧
            env.parseFloat (trimSpace score) = Except.ok x :=
  scoreOrigin_runShellCommand env boxID cmd codePath uq

/-- A run of C14 as amended: the result write of the successful run sets the score that
was parsed from `score.txt`. -/
theorem written_scores_witness :
    ({ score := some (GoFloat.fin (171 / 2)), message := some "OK", judgeTime := none }, none)
        ∈ writesTo 11 (runShellCommand successEnv 0 sampleScripts sampleCodePath sampleSubmission) ∧
      ∃ score, successEnv.scoreFile = Except.ok score ∧
        successEnv.parseFloat (trimSpace score) = Except.ok (GoFloat.fin (171 / 2)) := by
  have hmem : ((Cols.mk (some (GoFloat.fin (171 / 2))) (some "OK") none, none) :
      Cols × Option String)
      ∈ writesTo 11 (runShellCommand successEnv 0 sampleScripts sampleCodePath
        sampleSubmission) := by decide!
  refine ⟨hmem, ?_⟩
  rcases written_scores successEnv 0 sampleScripts sampleCodePath sampleSubmission _ hmem
    with h | h | h
  · exact absurd h (by decide!)
  · exact absurd h (by decide!)
  · rcases h (GoFloat.fin (171 / 2)) rfl with h2 | h0 | hp
    · exact absurd h2 (by decide!)
    · exact absurd h0 (by decide!)
    · exact hp

/-- C16, as stated, fails: the results of `os.MkdirAll` and of the `WriteFile` of
`score.json` are not looked at. In a run where both fail and the copy of the parser
succeeds, the compile and execute phases are started and the row ends with the parsed
score `85.5`, not with `-2`. -/
theorem staging_errors_ignored :
    stagingErrors (runShellCommand stagingFailEnv 0 sampleScripts sampleCodePath sampleSubmission)
        = ["mkdir /repos/alice/q7/0b5e/utils: permission denied",
           "open /repos/alice/q7/0b5e/utils/score.json: permission denied"] ∧
      isolateCalls (runShellCommand stagingFailEnv 0 sampleScripts sampleCodePath sampleSubmission)
        = [compileArgs stagingFailEnv 0 "/tmp/code0.sh" sampleCodePath,
           executeArgs stagingFailEnv 0 "/tmp/code1.sh" sampleCodePath] ∧
      waitingRow.after
          (writesTo 11 (runShellCommand stagingFailEnv 0 sampleScripts sampleCodePath sampleSubmission))
        = { score := GoFloat.fin (171 / 2), message := "OK", judgeTime := 2000 } := by
  refine ⟨by decide!, by decide!, by decide!⟩

/-- C16, amended: if the copy of the parser binary into `utils/` fails, `runShellCommand`
ends the run with the single result write `-2`, `Failed to copy score parser:` and the
error, and does not start the compile phase; if the copy succeeds, the compile phase is
started whatever `os.MkdirAll` and the `WriteFile` of `score.json` returned. -/
theorem copy_failure_write (env : RunEnv) (boxID : Int) (cmd : QuestionTestScript)
    (codePath : String) (uq : UserQuestionTable) (codeID : String)
    (htemp : env.tempFile 0 = Except.ok codeID) (hlen : codePath.length > 0) :
    (∀ err, env.copyErr = some err →
        writesTo uq.id (runShellCommand env boxID cmd codePath uq)
          = [(structUpdates { UserQuestionTable.zero with judgeTime := env.now }, env.dbErr 0),
             (structUpdates (scoreMessage (GoFloat.fin (-1)) "Judging..."), env.dbErr 1),
             ({ score := some (GoFloat.fin (-2)),
                message := some ("Failed to copy score parser: " ++ err),
                judgeTime := none }, env.dbErr 2)] ∧
        isolateCalls (runShellCommand env boxID cmd codePath uq) = []) ∧
      (env.copyErr = none →
        (isolateCalls (runShellCommand env boxID cmd codePath uq)).head?
          = some (compileArgs env boxID (env.shellFilename codeID) codePath)) := by
  constructor
  · intro err herr
    have hne := append_ne_empty "Failed to copy score parser: " err (by decide)
    unfold runShellCommand
    simp [Frame.emit, Frame.ret, Frame.defer, Frame.call, Frame.start, htemp, hlen, herr,
      writesTo_append, writesTo, isolateCalls_append, isolateCalls, getJsonfromdb,
      structUpdates, scoreMessage, UserQuestionTable.zero, hne]
  · intro hcopy
    unfold runShellCommand
    simp only [Frame.emit, Frame.ret, Frame.defer, Frame.call, Frame.start, htemp, hlen, hcopy,
      if_true, compileAndExecute]
    split
    · simp [isolateCalls_append, isolateCalls, getJsonfromdb, runCompile_events]
    · split
      · simp [isolateCalls_append, isolateCalls, getJsonfromdb, runCompile_events]
      · simp [isolateCalls_harvest, isolateCalls_append, isolateCalls, getJsonfromdb,
          runCompile_events]

/-- A run of C16 as amended: the copy of the parser succeeds although the two other
staging steps failed, and the compile phase is started. -/
theorem copy_failure_write_witness :
    stagingFailEnv.tempFile 0 = Except.ok "code0" ∧ sampleCodePath.length > 0 ∧
      stagingFailEnv.copyErr = none ∧
      (isolateCalls (runShellCommand stagingFailEnv 0 sampleScripts sampleCodePath
          sampleSubmission)).head?
        = some (compileArgs stagingFailEnv 0 (stagingFailEnv.shellFilename "code0")
            sampleCodePath) :=
  ⟨by decide, by decide, rfl,
    (copy_failure_write stagingFailEnv 0 sampleScripts sampleCodePath sampleSubmission "code0"
      (by decide) (by decide)).2 rfl⟩

/-- C12: with a pool in which `Reserve` answers with a free slot exactly when there is
one, a call of `assignJob` on a queue `q` with `f` free slots ends after `min f |q|`
passes: it has started runners for the first `min f |q|` jobs of `q`, in queue order,
each on a slot of its own that was free, it has pushed nothing back, the other jobs are
left queued in their order, and the number of slots in use, now larger by `min f |q|`,
does not exceed the capacity of the pool. -/
theorem assignJob_dispatches_in_order (reserve : List Bool → Option Nat)
    (hres : ReserveExact reserve) (s : Sandbox) (fuel : Nat)
    (hfuel : min s.AvailableCount s.queue.length < fuel) :
    ∃ (done : Sandbox) (evs : List Event) (boxes : List Nat),
      assignJob reserve fuel s = some (done, evs) ∧
      spawned evs
        = (boxes.map Int.ofNat).zip (s.queue.take (min s.AvailableCount s.queue.length)) ∧
      boxes.length = min s.AvailableCount s.queue.length ∧
      boxes.Nodup ∧ (∀ b ∈ boxes, s.inUse[b]? = some false) ∧
      pushedJobs evs = [] ∧
      done.queue = s.queue.drop (min s.AvailableCount s.queue.length) ∧
      done.inUse.length = s.inUse.length ∧
      done.inUse.count true = s.inUse.count true + min s.AvailableCount s.queue.length ∧
      done.inUse.count true ≤ s.inUse.length := by
  obtain ⟨done, evs, boxes, hrun, hspawned, hlen, hnodup, hfree, hpushed, hqueue, hcap,
    hused⟩ := assignJob_run reserve hres fuel s hfuel
  refine ⟨done, evs, boxes, hrun, hspawned, hlen, hnodup, hfree, hpushed, hqueue, hcap,
    hused, ?_⟩
  rw [← hcap]
  exact List.count_le_length true done.inUse

/-- A tick of C12: three jobs queued, two of three slots free, lowest free slot first. -/
theorem assignJob_dispatches_in_order_witness :
    ReserveExact lowestFree ∧
      ∃ (done : Sandbox) (evs : List Event),
        assignJob lowestFree 3
            { inUse := [true, false, false], queue := [sampleJob, otherJob, sampleJob] }
          = some (done, evs) ∧
        done.queue = [sampleJob] := by
  refine ⟨lowestFree_exact, ?_⟩
  obtain ⟨done, evs, _, hrun, _, _, _, _, _, hqueue, _⟩ :=
    assignJob_dispatches_in_order lowestFree lowestFree_exact
      { inUse := [true, false, false], queue := [sampleJob, otherJob, sampleJob] } 3
      (by decide)
  exact ⟨done, evs, hrun, by simpa [Sandbox.AvailableCount] using hqueue⟩

/-- C18 fails on the code at a blank message, by the defect of C6: the score ` 85.5 `
is harvested as `85.5`, with or without the white space around it, but a `message.txt`
that holds only white space is trimmed to the empty string, which the struct `Updates`
does not write, and the row keeps the message `Judging...`. -/
theorem blank_message_not_persisted_after_trim :
    trimSpace " 85.5 \n" = "85.5" ∧ trimSpace "\t \n" = "" ∧
      waitingRow.after
          (writesTo 11 (runShellCommandByRepo (harvestEnv " 85.5 \n" "\t \n") 0 sampleJob))
        = { score := GoFloat.fin (171 / 2), message := "Judging...", judgeTime := 2000 } ∧
      waitingRow.after
          (writesTo 11 (runShellCommandByRepo (harvestEnv " 85.5 \n" " OK \n") 0 sampleJob))
        = { score := GoFloat.fin (171 / 2), message := "OK", judgeTime := 2000 } := by
  refine ⟨by decide, by decide, by decide!, by decide!⟩

/-- C21: what `runExecute` returns does not decide the final state of the Submission:
two runs of `runShellCommand` that differ only in the exit of the isolation tool in the
execute phase, and read the same `score.txt` and `message.txt`, perform the same
effects, and so make the same writes to the Submission. -/
theorem execute_outcome_not_decisive (env : RunEnv) (boxID : Int) (cmd : QuestionTestScript)
    (codePath : String) (uq : UserQuestionTable) (e1 e2 : ProcResult) :
    runShellCommand { env with execute := e1 } boxID cmd codePath uq
        = runShellCommand { env with execute := e2 } boxID cmd codePath uq ∧
      writesTo uq.id (runShellCommand { env with execute := e1 } boxID cmd codePath uq)
        = writesTo uq.id (runShellCommand { env with execute := e2 } boxID cmd codePath uq) := by
  have hrun : runShellCommand { env with execute := e1 } boxID cmd codePath uq
      = runShellCommand { env with execute := e2 } boxID cmd codePath uq := by
    simp only [runShellCommand, compileAndExecute, runExecute_events, harvest, runCompile,
      executeArgs, compileArgs, getJsonfromdb]
  exact ⟨hrun, by rw [hrun]⟩

/-- C23, as stated, fails: the interpreter in both argument vectors is `/usr/bin/sh`,
not `/bin/sh`. -/
theorem interpreter_is_usr_bin_sh :
    (compileArgs successEnv 0 "/tmp/code0.sh" sampleCodePath).drop
        ((compileArgs successEnv 0 "/tmp/code0.sh" sampleCodePath).length - 4)
        = ["--run", "--", "/usr/bin/sh", "/tmp/code0.sh"] ∧
      (executeArgs successEnv 0 "/tmp/code1.sh" sampleCodePath).drop
        ((executeArgs successEnv 0 "/tmp/code1.sh" sampleCodePath).length - 4)
        = ["--run", "--", "/usr/bin/sh", "/tmp/code1.sh"] ∧
      ["--run", "--", "/usr/bin/sh", "/tmp/code0.sh"]
        ≠ ["--run", "--", "/bin/sh", "/tmp/code0.sh"] := by
  refine ⟨by decide, by decide, by decide⟩

/-- C23, amended: in compile mode and in execute mode, for every box id, script path and
code path, the argument vector passed to the isolation tool starts with
`--box-id=<box id>` and ends with the four arguments `--run`, `--`, `/usr/bin/sh` and the
script path. -/
theorem argument_vector_ends (env : RunEnv) (box : Int) (shellCommand codePath : String) :
    (compileArgs env box shellCommand codePath).head? = some ("--box-id=" ++ toString box) ∧
      (compileArgs env box shellCommand codePath).drop
        ((compileArgs env box shellCommand codePath).length - 4)
        = ["--run", "--", "/usr/bin/sh", shellCommand] ∧
      (executeArgs env box shellCommand codePath).head? = some ("--box-id=" ++ toString box) ∧
      (executeArgs env box shellCommand codePath).drop
        ((executeArgs env box shellCommand codePath).length - 4)
        = ["--run", "--", "/usr/bin/sh", shellCommand] := by
  unfold compileArgs executeArgs
  by_cases hlen : codePath.length > 0 <;> simp [hlen]

/-- C24 fails on the code: in `ReScoreQuestion` each clone is followed by
`defer os.RemoveAll(codePath)`, which runs when the goroutine returns, after the jobs
have been pushed. For a link whose clone succeeds the bulk routine pushes one Job with
the clone path and then removes that very directory; `ReScoreUserQuestion` pushes its
Job and removes nothing. -/
theorem bulk_rescore_removes_clone :
    (pushedJobs (ReScoreQuestion (bulkEnv true 5))).map (fun job => job.codePath)
        = ["/repos/alice/q7/uuid0"] ∧
      removedDirs (ReScoreQuestion (bulkEnv true 5)) = ["/repos/alice/q7/uuid0"] ∧
      dirPresent "/repos/alice/q7/uuid0" false (ReScoreQuestion (bulkEnv true 5)) = false ∧
      (pushedJobs (ReScoreUserQuestion (rescoreEnv none))).map (fun job => job.codePath)
        = ["/repos/alice/q7/0b5e"] ∧
      removedDirs (ReScoreUserQuestion (rescoreEnv none)) = [] ∧
      dirPresent "/repos/alice/q7/0b5e" false (ReScoreUserQuestion (rescoreEnv none)) = true := by
  refine ⟨by decide!, by decide!, by decide!, by decide!, by decide!, by decide!⟩

/-- C22, as stated, fails on the path where the database rejects the result: the run
then issues a second terminal write, the fallback `-2`. In a run where the database goes
down after mark-running, two terminal writes are issued after the execute call, none of
them is stored, and the row stays at `(-1, "Judging...")`. -/
theorem two_terminal_writes_on_db_failure :
    milestones 11 (runShellCommand dbDownEnv 0 sampleScripts sampleCodePath sampleSubmission)
        = [Milestone.write { score := none, message := none, judgeTime := some 2000 } none,
           Milestone.write { score := some (GoFloat.fin (-1)), message := some "Judging...",
                             judgeTime := none } none,
           Milestone.isolate (compileArgs dbDownEnv 0 "/tmp/code0.sh" sampleCodePath),
           Milestone.isolate (executeArgs dbDownEnv 0 "/tmp/code1.sh" sampleCodePath),
           Milestone.write { score := some (GoFloat.fin (171 / 2)), message := some "OK",
                             judgeTime := none } (some "connection refused"),
           Milestone.write { score := some (GoFloat.fin (-2)),
                             message := some "Failed to update score: connection refused",
                             judgeTime := none } (some "connection refused")] ∧
      waitingRow.after
          (writesTo 11 (runShellCommand dbDownEnv 0 sampleScripts sampleCodePath sampleSubmission))
        = { score := GoFloat.fin (-1), message := "Judging...", judgeTime := 2000 } := by
  refine ⟨by decide!, by decide!⟩

/-- C22, amended: in every execution of `runShellCommand` the writes to the Submission
and the calls of the isolation tool occur in the order mark-running, compile, execute,
terminal: first the write of `judge_time` and the write of `(-1, "Judging...")`; then no
call, the compile call, or the compile call and the execute call, the execute call only
after a compile that succeeded; then one terminal write `t`; then the fallback write of
`-2` when `t` is the result write at the end of the harvest phase and the database
rejected it, and no further write in every other case (the database accepted `t`, or the
run did not get to the result write); and nothing else. -/
theorem run_order (env : RunEnv) (boxID : Int) (cmd : QuestionTestScript)
    (codePath : String) (uq : UserQuestionTable) :
    ∃ (calls : List (List String)) (t : Cols) (fallback : List Milestone),
      (calls = [] ∨
        (∃ codeID, calls = [compileArgs env boxID (env.shellFilename codeID) codePath]) ∨
        (∃ codeID execodeID,
          (runCompile env boxID (env.shellFilename codeID) codePath).2.1 = true ∧
          calls = [compileArgs env boxID (env.shellFilename codeID) codePath,
            executeArgs env boxID (env.shellFilename execodeID) codePath])) ∧
      ((∃ err, ReachesResult env codePath t ∧ env.dbErr 2 = some err ∧
          fallback = [Milestone.write
            (structUpdates (scoreMessage (GoFloat.fin (-2)) ("Failed to update score: " ++ err)))
            (env.dbErr 3)]) ∨
        ((env.dbErr 2 = none ∨ ¬ ∃ r, ReachesResult env codePath r) ∧ fallback = [])) ∧
      milestones uq.id (runShellCommand env boxID cmd codePath uq)
        = [Milestone.write (structUpdates { UserQuestionTable.zero with judgeTime := env.now })
              (env.dbErr 0),
            Milestone.write (structUpdates (scoreMessage (GoFloat.fin (-1)) "Judging..."))
              (env.dbErr 1)]
          ++ calls.map Milestone.isolate ++ Milestone.write t (env.dbErr 2) :: fallback :=
  milestones_runShellCommand env boxID cmd codePath uq

/-- C25: in the leaderboard assembled by `GetLeaderboard` the entries follow the rows of
the total-score query one by one, in their order; the entry of a user who is not public
is named `User_<user id>` and that of a public user carries the user name; and the
response is the same on a database that differs only in the user names of the users who
are not public. -/
theorem leaderboard_hides_private_names :
    (∀ (users : List UserWithTotalScore) (details : List QuestionScoreDetail),
        (leaderboardScores users details).map (fun e => e.userName)
          = users.map (fun u =>
              if u.isPublic then u.userName else "User_" ++ toString u.userID) ∧
        (leaderboardScores users details).map (fun e => e.totalScore)
          = users.map (fun u => u.totalScore)) ∧
      (∀ (env : LeaderboardEnv) (name : UserWithTotalScore → String),
        GetLeaderboard (env.renamed name) = GetLeaderboard env) ∧
      (∀ (env : LeaderboardEnv) (total : Int) (users : List UserWithTotalScore)
          (details : List QuestionScoreDetail),
        env.countResult = Except.ok total →
        env.usersResult ((env.page - 1) * env.limit) env.limit = Except.ok users →
        users ≠ [] →
        env.questionScoresResult (users.map (fun u => u.userID)) = Except.ok details →
        GetLeaderboard env
          = { status := 200, message := "Successfully retrieved leaderboard",
              data := some (total, leaderboardScores users details) }) := by
  have hentry : ∀ (scoresOf : Nat → List QuestionScore) (name : UserWithTotalScore → String)
      (u : UserWithTotalScore),
      leaderboardEntry scoresOf (renamePrivate name u) = leaderboardEntry scoresOf u := by
    intro scoresOf name u
    cases hp : u.isPublic <;> simp [leaderboardEntry, renamePrivate, hp]
  have hid : ∀ (name : UserWithTotalScore → String) (u : UserWithTotalScore),
      (renamePrivate name u).userID = u.userID := by
    intro name u
    cases hp : u.isPublic <;> simp [renamePrivate, hp]
  refine ⟨?_, ?_, ?_⟩
  · intro users details
    constructor
    · simp only [leaderboardScores, List.map_map]
      apply List.map_congr_left
      intro u _
      cases hp : u.isPublic <;> simp [leaderboardEntry, hp]
    · simp only [leaderboardScores, List.map_map]
      apply List.map_congr_left
      intro u _
      simp [leaderboardEntry]
  · intro env name
    unfold GetLeaderboard LeaderboardEnv.renamed
    cases hcount : env.countResult with
    | error err => simp
    | ok total =>
      cases husers : env.usersResult ((env.page - 1) * env.limit) env.limit with
      | error err => simp [husers]
      | ok users =>
        have hids : (users.map (renamePrivate name)).map (fun u => u.userID)
            = users.map (fun u => u.userID) := by
          simp only [List.map_map]
          apply List.map_congr_left
          intro u _
          exact hid name u
        have hboard : ∀ details, leaderboardScores (users.map (renamePrivate name)) details
            = leaderboardScores users details := by
          intro details
          simp only [leaderboardScores, List.map_map]
          apply List.map_congr_left
          intro u _
          exact hentry _ name u
        simp only [husers, List.length_map, hids, hboard]
  · intro env total users details hcount husers hne hdetails
    have hlen : ¬ users.length = 0 := by
      intro h
      exact hne (List.length_eq_zero.mp h)
    simp [GetLeaderboard, hcount, husers, hlen, hdetails]

/-- A leaderboard of C25: `bob`, who is not public, is listed as `User_6`. -/
theorem leaderboard_hides_private_names_witness :
    boardEnv.countResult = Except.ok 3 ∧ sampleBoard ≠ [] ∧
      GetLeaderboard boardEnv
        = { status := 200, message := "Successfully retrieved leaderboard",
            data := some (3, leaderboardScores sampleBoard sampleDetails) } ∧
      (leaderboardScores sampleBoard sampleDetails).map (fun e => e.userName)
        = ["alice", "User_6"] :=
  ⟨rfl, by decide,
    leaderboard_hides_private_names.2.2 boardEnv 3 sampleBoard sampleDetails rfl rfl
      (by decide) rfl,
    by decide⟩

/-- C26: `ResetPassword` calls `AdminEditUser` at most once, and only if the token
parameter is not empty, the body binds, the token validates to a user id, the user with
that id is in the table, an admin user is in the table and a token of that admin is
available; the account edited and the login name are the user name of the user whose id
the token validates to, the password set is that of the request; and a call without a
password change is answered with 400, 404 or 503. -/
theorem reset_password_guarded (env : ResetEnv) :
    (∀ change ∈ passwordChanges (ResetPassword env),
        env.token ≠ "" ∧
        ∃ newPassword userID user adminUser adminToken,
          env.body = Except.ok newPassword ∧
          env.validateResetToken env.token = Except.ok userID ∧
          user ∈ env.users ∧ user.id = userID ∧
          adminUser ∈ env.users ∧ adminUser.isAdmin = true ∧
          env.getToken adminUser.id = Except.ok adminToken ∧
          change = (user.userName, user.userName, newPassword)) ∧
      (passwordChanges (ResetPassword env)).length ≤ 1 ∧
      (passwordChanges (ResetPassword env) = [] →
        responses (ResetPassword env) = [400] ∨ responses (ResetPassword env) = [404] ∨
          responses (ResetPassword env) = [503]) ∧
      (responses (ResetPassword env) = [200] →
        (passwordChanges (ResetPassword env)).length = 1) := by
  unfold ResetPassword
  by_cases htoken : env.token = ""
  · simp [htoken, passwordChanges, responses]
  · cases hbody : env.body with
    | error err => simp [htoken, hbody, passwordChanges, responses]
    | ok newPassword =>
      cases hvalid : env.validateResetToken env.token with
      | error err => simp [htoken, hbody, hvalid, passwordChanges, responses]
      | ok userID =>
        cases huser : firstUser env 0 (fun u => decide (u.id = userID)) with
        | none => simp [htoken, hbody, hvalid, huser, passwordChanges, responses]
        | some user =>
          cases hadmin : firstUser env 1 (fun u => u.isAdmin) with
          | none => simp [htoken, hbody, hvalid, huser, hadmin, passwordChanges, responses]
          | some adminUser =>
            cases htok : env.getToken adminUser.id with
            | error err => simp [htoken, hbody, hvalid, huser, hadmin, htok, passwordChanges, responses]
            | ok adminToken =>
              cases hclient : env.newClientErr with
              | some err =>
                simp [htoken, hbody, hvalid, huser, hadmin, htok, passwordChanges, responses]
              | none =>
                have hu := firstUser_some env 0 _ user huser
                have ha := firstUser_some env 1 _ adminUser hadmin
                have huid : user.id = userID := by simpa using hu.2
                cases hedit : env.editErr <;>
                  simp [htoken, hbody, hvalid, huser, hadmin, htok, passwordChanges, responses] <;>
                  exact ⟨user, hu.1, huid, adminUser, ha.1, ha.2, ⟨adminToken, htok⟩, rfl⟩

/-- A request of C26: the token of user 5 changes the password of `alice`. -/
theorem reset_password_guarded_witness :
    ("alice", "alice", "secret123") ∈ passwordChanges (ResetPassword resetEnv) ∧
      resetEnv.token ≠ "" := by
  have hmem : (("alice", "alice", "secret123") : String × String × String)
      ∈ passwordChanges (ResetPassword resetEnv) := by decide
  exact ⟨hmem, ((reset_password_guarded resetEnv).1 _ hmem).1⟩

end OJ
